import Mathlib

/-!
Verification of the CONCORD consistency-engine core, shallowly embedded from
`backend/app` (knowledge_graph.py, causality/propagator.py, constraint_engine.py,
entity_tracker.py, api/routes/consistency.py).

Python `UUID` identifiers are modelled as `Nat`; Python `dict`s (which preserve
insertion order) are modelled as association lists `List (κ × ν)` with unique
keys as maintained by the store API; Python `float` scores and confidences are
modelled as `ℚ`; the scores computed by the consistency route are modelled as
the exact rational values of the IEEE-754 binary64 (double) numbers Python
produces (namespace `Fp64` below).
-/

set_option maxRecDepth 100000

namespace Concord

/-- Modelled from the spec: `FactValidity` is imported by the store and the
propagator from `app.models`, but its definition is absent from
`models/models.py` (the spec's data model gives the value set
`valid|dirty|invalid`). -/
inductive FactValidity where
  | VALID
  | DIRTY
  | INVALID
deriving DecidableEq, Repr

/-- `ConstraintType` enum from `models/models.py`. -/
inductive ConstraintType where
  | FACTUAL
  | TEMPORAL
  | CAUSAL
  | SPATIAL
  | BEHAVIORAL
  | RELATIONAL
deriving DecidableEq, Repr

/-- `ConsistencyLevel` enum from `models/models.py`. -/
inductive ConsistencyLevel where
  | CONSISTENT
  | WARNING
  | INCONSISTENT
  | CRITICAL
deriving DecidableEq, Repr

/-- `EntityType` enum from `models/models.py`. -/
inductive EntityType where
  | CHARACTER
  | LOCATION
  | OBJECT
  | EVENT
  | CONCEPT
  | TIME
deriving DecidableEq, Repr

/-- `Fact` as the store and propagator use it: the pydantic model in
`models/models.py` plus the `validity_status` / `dependencies` / `world_id`
fields that `KnowledgeGraph.add_fact` constructs and the propagator mutates
(modelled from the spec's data model, these fields being absent from
`models/models.py`). `created_at`/`source_text`/`position` are irrelevant to
every claim and omitted. -/
structure Fact where
  id : Nat
  subject : String
  predicate : String
  object : String
  confidence : ℚ := 1
  validity_status : FactValidity := FactValidity.VALID
  dependencies : List Nat := []
  world_id : Option String := none
deriving DecidableEq, Repr

/-- `Entity` from `models/models.py`; the open `attributes` mapping is modelled
as a string-valued association list (the only attribute the checked code reads
is the string-valued `archetype`). -/
structure Entity where
  id : Nat
  name : String
  type : EntityType
  attributes : List (String × String) := []
  first_appearance : Option Nat := none
deriving DecidableEq, Repr

/-- `Relationship` from `models/models.py` (`properties` modelled as a
string-valued association list). -/
structure Relationship where
  id : Nat
  source_entity_id : Nat
  target_entity_id : Nat
  relationship_type : String
  properties : List (String × String) := []
  established_at : Option Nat := none
deriving DecidableEq, Repr

/-- A rational literal in lowest terms, written with the raw `Rat` constructor
so that concrete evaluation by `decide` works (`qLit 9 10` is 0.9,
`qLit 17 20` is 0.85, and so on; see `qLit_eq_div`). -/
def qLit (num : Int) (den : Nat) : ℚ :=
  mkRat num den

theorem qLit_eq_div (num : Int) (den : Nat) :
    qLit num den = (num : ℚ) / (den : ℚ) := by
  rw [qLit, Rat.mkRat_eq_divInt, Rat.divInt_eq_div]
  norm_num

/-- `ConsistencyIssue` from `models/models.py` (the random `id` and the unused
`position` field are omitted). -/
structure ConsistencyIssue where
  type : ConstraintType
  level : ConsistencyLevel
  description : String
  conflicting_facts : List Nat := []
  evidence : List String := []
  suggested_fix : Option String := none
  confidence : ℚ := 1
deriving DecidableEq, Repr

/-- `Constraint` from `models/models.py` (fields the engine reads). -/
structure Constraint where
  id : Nat
  type : ConstraintType
  description : String
  rule : String
  is_hard : Bool := true
  priority : Nat := 5
deriving DecidableEq, Repr

/-! ## The knowledge-graph store (`core/knowledge_graph.py`) -/

/-- `KnowledgeGraph.__init__`: the five internal maps. -/
structure KnowledgeGraph where
  entities : List (Nat × Entity) := []
  relationships : List (Nat × Relationship) := []
  facts : List (Nat × Fact) := []
  fact_index : List (String × List Nat) := []
  dependent_index : List (Nat × List Nat) := []
deriving DecidableEq, Repr

namespace KnowledgeGraph

/-- Python dict assignment `d[k] = v`: replace in place if the key exists,
otherwise append the new key at the end (dicts preserve insertion order). -/
def dictSet {κ ν : Type} [BEq κ] (l : List (κ × ν)) (k : κ) (v : ν) : List (κ × ν) :=
  match l with
  | [] => [(k, v)]
  | (k', v') :: rest =>
    if k' == k then (k', v) :: rest else (k', v') :: dictSet rest k v

/-- `get_fact`: `self._facts.get(fact_id)`. -/
def get_fact (kg : KnowledgeGraph) (fact_id : Nat) : Option Fact :=
  kg.facts.lookup fact_id

/-- `get_facts`: `list(self._facts.values())[offset : offset + limit]`. -/
def get_facts (kg : KnowledgeGraph) (limit offset : Nat) : List Fact :=
  (((kg.facts.map Prod.snd).drop offset).take limit)

/-- `get_entities`: values, optionally filtered by type, truncated to `limit`. -/
def get_entities (kg : KnowledgeGraph) (entity_type : Option EntityType)
    (limit : Nat) : List Entity :=
  let entities := kg.entities.map Prod.snd
  let entities := match entity_type with
    | none => entities
    | some t => entities.filter (fun e => e.type == t)
  entities.take limit

/-- `get_facts_by_subject`: ids from the subject index, resolved against
`_facts`, silently skipping ids no longer present. -/
def get_facts_by_subject (kg : KnowledgeGraph) (subject : String) : List Fact :=
  ((kg.fact_index.lookup subject).getD []).filterMap (fun fid => kg.facts.lookup fid)

/-- `get_dependents`: reverse-dependency ids resolved against `_facts`,
silently skipping ids no longer present. -/
def get_dependents (kg : KnowledgeGraph) (fact_id : Nat) : List Fact :=
  ((kg.dependent_index.lookup fact_id).getD []).filterMap (fun fid => kg.facts.lookup fid)

/-- `add_entity`: `self._entities[entity.id] = entity`. -/
def add_entity (kg : KnowledgeGraph) (entity : Entity) : KnowledgeGraph :=
  { kg with entities := dictSet kg.entities entity.id entity }

/-- `add_fact` (the graph mutation; the fresh uuid and timestamp are inputs
here, and the `EventBus().publish` side channel has no effect on the store). -/
def add_fact (kg : KnowledgeGraph) (fact_id : Nat) (subject predicate object_ : String)
    (world_id : Option String) (dependencies : List Nat) : KnowledgeGraph :=
  let fact : Fact :=
    { id := fact_id, subject := subject, predicate := predicate, object := object_,
      world_id := world_id, validity_status := FactValidity.VALID,
      dependencies := dependencies }
  let facts := dictSet kg.facts fact_id fact
  let fact_index := dictSet kg.fact_index fact.subject
    (((kg.fact_index.lookup fact.subject).getD []) ++ [fact.id])
  let dependent_index := fact.dependencies.foldl
    (fun idx dep_id => dictSet idx dep_id (((idx.lookup dep_id).getD []) ++ [fact.id]))
    kg.dependent_index
  { kg with facts := facts, fact_index := fact_index, dependent_index := dependent_index }

/-- `remove_fact`: delete the fact, filter its id out of its subject's index
entry, and drop its reverse-dependency entry. Returns the success flag. -/
def remove_fact (kg : KnowledgeGraph) (fact_id : Nat) : KnowledgeGraph × Bool :=
  match kg.facts.lookup fact_id with
  | none => (kg, false)
  | some fact =>
    let facts := kg.facts.filter (fun p => p.1 != fact_id)
    let fact_index :=
      match kg.fact_index.lookup fact.subject with
      | none => kg.fact_index
      | some ids => dictSet kg.fact_index fact.subject (ids.filter (fun fid => fid != fact_id))
    let dependent_index := kg.dependent_index.filter (fun p => p.1 != fact_id)
    ({ kg with facts := facts, fact_index := fact_index, dependent_index := dependent_index },
     true)

/-- The in-place `fact.validity_status = st` mutation of the fact object stored
under key `fact_id` in `self._facts`. -/
def setStatus (kg : KnowledgeGraph) (fact_id : Nat) (st : FactValidity) : KnowledgeGraph :=
  { kg with facts := kg.facts.map (fun p =>
      if p.1 = fact_id then (p.1, { p.2 with validity_status := st }) else p) }

/-- The values of `self._facts`, in insertion order. -/
def storedFacts (kg : KnowledgeGraph) : List Fact :=
  kg.facts.map Prod.snd

/-- The issue `check_conflicts` constructs for one conflicting
(existing, new) pair: type factual, level inconsistent, both fact ids as
`conflicting_facts`, confidence 0.9. (Description/evidence strings are built
from the same fields as in the source, with the source's quoting elided.) -/
def conflictIssue (existing new_fact : Fact) : ConsistencyIssue :=
  { type := ConstraintType.FACTUAL,
    level := ConsistencyLevel.INCONSISTENT,
    description := "Contradiction: " ++ new_fact.subject
      ++ " has conflicting values for " ++ new_fact.predicate
      ++ ". Existing: " ++ existing.object ++ ", New: " ++ new_fact.object,
    conflicting_facts := [existing.id, new_fact.id],
    evidence := ["Existing fact: " ++ existing.subject ++ " " ++ existing.predicate
        ++ " " ++ existing.object,
      "New fact: " ++ new_fact.subject ++ " " ++ new_fact.predicate ++ " " ++ new_fact.object],
    suggested_fix := some ("Clarify whether " ++ new_fact.subject ++ " " ++ new_fact.predicate
      ++ " is " ++ existing.object ++ " or " ++ new_fact.object),
    confidence := qLit 9 10 }

/-- The inner loop of `check_conflicts` for one new fact: scan the existing
facts its subject indexes; every same-predicate different-object pair appends
an issue (no early exit). -/
def conflictsAgainst (new_fact : Fact) : List Fact → List ConsistencyIssue
  | [] => []
  | existing :: rest =>
    if existing.predicate = new_fact.predicate then
      if existing.object ≠ new_fact.object then
        conflictIssue existing new_fact :: conflictsAgainst new_fact rest
      else conflictsAgainst new_fact rest
    else conflictsAgainst new_fact rest

/-- `check_conflicts`: for each new fact, scan the stored facts the subject
index returns and collect every contradiction issue. -/
def check_conflicts (kg : KnowledgeGraph) : List Fact → List ConsistencyIssue
  | [] => []
  | nf :: rest =>
    conflictsAgainst nf (kg.get_facts_by_subject nf.subject) ++ check_conflicts kg rest

end KnowledgeGraph

/-- The dict `create_snapshot` returns: deep copies of the five internal maps
(deep copies are identities in this pure model). -/
structure Snapshot where
  entities : List (Nat × Entity)
  relationships : List (Nat × Relationship)
  facts : List (Nat × Fact)
  fact_index : List (String × List Nat)
  dependent_index : List (Nat × List Nat)
deriving DecidableEq, Repr

namespace KnowledgeGraph

/-- `create_snapshot`. -/
def create_snapshot (kg : KnowledgeGraph) : Snapshot :=
  { entities := kg.entities, relationships := kg.relationships, facts := kg.facts,
    fact_index := kg.fact_index, dependent_index := kg.dependent_index }

/-- `restore_snapshot`: replace every internal map with the snapshot's copy,
discarding the current state. -/
def restore_snapshot (_kg : KnowledgeGraph) (s : Snapshot) : KnowledgeGraph :=
  { entities := s.entities, relationships := s.relationships, facts := s.facts,
    fact_index := s.fact_index, dependent_index := s.dependent_index }

/-- One store mutation, as performed between snapshot and restore. -/
inductive StoreOp where
  | addFact (fact_id : Nat) (subject predicate object_ : String)
      (world_id : Option String) (dependencies : List Nat)
  | removeFact (fact_id : Nat)
  | addEntity (entity : Entity)
  | setValidity (fact_id : Nat) (st : FactValidity)

/-- Run one mutation against the store. -/
def applyOp (kg : KnowledgeGraph) : StoreOp → KnowledgeGraph
  | StoreOp.addFact i s p o w d => kg.add_fact i s p o w d
  | StoreOp.removeFact i => (kg.remove_fact i).1
  | StoreOp.addEntity e => kg.add_entity e
  | StoreOp.setValidity i st => kg.setStatus i st

/-- Run a sequence of mutations against the store. -/
def applyOps (kg : KnowledgeGraph) (ops : List StoreOp) : KnowledgeGraph :=
  ops.foldl applyOp kg

end KnowledgeGraph

/-! ## Python string primitives

Executable models of the Python string operations the engine uses, written
over `List Char` so that concrete evaluation by `decide`/`rfl` works (the
built-in `String.toLower`/`String.splitOn` do not kernel-reduce). ASCII is
assumed throughout, matching every string the engine and the claims touch. -/

/-- Python's `\w` (ASCII): letters, digits, underscore. -/
def isWordChar (c : Char) : Bool :=
  (c ≥ 'a' && c ≤ 'z') || (c ≥ 'A' && c ≤ 'Z') || (c ≥ '0' && c ≤ '9') || c == '_'

/-- Python's `\s` (ASCII): the six whitespace characters. -/
def isPySpace (c : Char) : Bool :=
  c == ' ' || c == '\t' || c == '\n' || c == '\r' || c == '\x0b' || c == '\x0c'

/-- ASCII lowercasing of one character (Python `str.lower`). -/
def pyLowerChar (c : Char) : Char :=
  if c ≥ 'A' && c ≤ 'Z' then Char.ofNat (c.toNat + 32) else c

/-- Python `str.lower` (ASCII). -/
def pyLower (s : String) : String :=
  String.mk (s.toList.map pyLowerChar)

/-- Strip characters satisfying `p` from both ends (Python `str.strip(chars)`). -/
def stripWhile (p : Char → Bool) (l : List Char) : List Char :=
  ((l.dropWhile p).reverse.dropWhile p).reverse

/-- Python `str.strip()` (whitespace). -/
def pyStrip (s : String) : String :=
  String.mk (stripWhile isPySpace s.toList)

/-- Python `str.strip("'\"")`: strip quote characters from both ends. -/
def stripQuotes (s : String) : String :=
  String.mk (stripWhile (fun c => c == '\x27' || c == '"') s.toList)

/-- Is `needle` a leading run of `hay`? -/
def startsList : List Char → List Char → Bool
  | [], _ => true
  | _ :: _, [] => false
  | c :: cs, h :: hs => c == h && startsList cs hs

/-- Python's substring test `needle in hay`. -/
def containsSub (needle : List Char) : List Char → Bool
  | [] => startsList needle []
  | h :: hs => startsList needle (h :: hs) || containsSub needle hs

/-- Python's substring test on `String`s. -/
def strContains (hay needle : String) : Bool :=
  containsSub needle.toList hay.toList

/-- Python `str.split(sep)` for a one-character separator (keeps empty
pieces, e.g. `"a.b.".split(".") == ["a","b",""]`). -/
def splitOnCharAux (sep : Char) : List Char → List Char → List (List Char)
  | [], acc => [acc.reverse]
  | c :: cs, acc =>
    if c == sep then acc.reverse :: splitOnCharAux sep cs []
    else splitOnCharAux sep cs (c :: acc)

/-- Python `text.split(sep)` for a one-character separator, on `String`s. -/
def pySplit (s : String) (sep : Char) : List String :=
  (splitOnCharAux sep s.toList []).map String.mk

/-! ## The constraint engine (`core/constraint_engine.py`) -/

namespace ConstraintEngine

/-- `float(actual)` / `float(expected)` in `_evaluate_operator`: Python
`float()` on a string — surrounding whitespace, an optional sign and a
decimal literal `d*[.d*]` with at least one digit. Exponents, `inf`/`nan`
and underscore separators are not modelled (no rule or claim exercises
them); values are exact rationals rather than IEEE doubles. -/
def pyFloatDigits (l : List Char) : Option ℚ :=
  let intPart := l.takeWhile Char.isDigit
  let r1 := l.dropWhile Char.isDigit
  match r1 with
  | [] =>
    if intPart.isEmpty then none
    else some ((intPart.foldl (fun n c => n * 10 + (c.toNat - 48)) 0 : Nat) : ℚ)
  | '.' :: r2 =>
    let frac := r2.takeWhile Char.isDigit
    let r3 := r2.dropWhile Char.isDigit
    if r3.isEmpty && !(intPart.isEmpty && frac.isEmpty) then
      some (mkRat ((intPart.foldl (fun n c => n * 10 + (c.toNat - 48)) 0) * 10 ^ frac.length
        + (frac.foldl (fun n c => n * 10 + (c.toNat - 48)) 0) : Nat) (10 ^ frac.length))
    else none
  | _ => none

/-- `float()` on a full string: strip whitespace, optional sign, digits. -/
def pyFloat (s : String) : Option ℚ :=
  match stripWhile isPySpace s.toList with
  | '+' :: r => pyFloatDigits r
  | '-' :: r => (pyFloatDigits r).map Neg.neg
  | r => pyFloatDigits r

/-- `_evaluate_operator`: case-insensitive equality for `==`/`!=`; numeric
comparison for the order operators with the `ValueError` fallback of plain
(case-sensitive) string equality; any other operator string returns True. -/
def evalOp (actual operator expected : String) : Bool :=
  if operator == "==" then pyLower actual == pyLower expected
  else if operator == "!=" then pyLower actual != pyLower expected
  else if operator == ">" then
    match pyFloat actual, pyFloat expected with
    | some x, some y => decide (x > y)
    | _, _ => actual == expected
  else if operator == "<" then
    match pyFloat actual, pyFloat expected with
    | some x, some y => decide (x < y)
    | _, _ => actual == expected
  else if operator == ">=" then
    match pyFloat actual, pyFloat expected with
    | some x, some y => decide (x ≥ y)
    | _, _ => actual == expected
  else if operator == "<=" then
    match pyFloat actual, pyFloat expected with
    | some x, some y => decide (x ≤ y)
    | _, _ => actual == expected
  else true

/-- The regex group `(.+)` (greedy, `.` does not match a newline): succeeds
iff the head exists and is not a newline, capturing up to the next newline. -/
def dotPlus (l : List Char) : Option (List Char) :=
  match l with
  | [] => none
  | c :: _ => if c == '\n' then none else some (l.takeWhile (fun d => d != '\n'))

/-- The regex tail `\s*(.+)` with backtracking: the greedy `\s*` consumes as
much whitespace as possible, then gives characters back one at a time until
`(.+)` can match. Returns group 4. -/
def wsStarDotPlus : List Char → Option (List Char)
  | [] => none
  | c :: cs =>
    if isPySpace c then
      match wsStarDotPlus cs with
      | some v => some v
      | none => dotPlus (c :: cs)
    else dotPlus (c :: cs)

/-- The ordered alternation `(==|!=|>|<|>=|<=)` followed by `\s*(.+)`, with
regex backtracking: because `>` precedes `>=` (and `<` precedes `<=`) in the
pattern, `>=`/`<=` are reachable only when the one-character operator matches
but `\s*(.+)` fails afterwards. Returns (operator, raw group 4). -/
def opAndValue (l : List Char) : Option (String × String) :=
  match l with
  | '=' :: '=' :: rest => (wsStarDotPlus rest).map (fun v => ("==", String.mk v))
  | '!' :: '=' :: rest => (wsStarDotPlus rest).map (fun v => ("!=", String.mk v))
  | '>' :: rest =>
    match wsStarDotPlus rest with
    | some v => some (">", String.mk v)
    | none =>
      match rest with
      | '=' :: rest2 => (wsStarDotPlus rest2).map (fun v => (">=", String.mk v))
      | _ => none
  | '<' :: rest =>
    match wsStarDotPlus rest with
    | some v => some ("<", String.mk v)
    | none =>
      match rest with
      | '=' :: rest2 => (wsStarDotPlus rest2).map (fun v => ("<=", String.mk v))
      | _ => none
  | _ => none

/-- `re.match(r"entity\.(\w+)\.(\w+)\s*(==|!=|>|<|>=|<=)\s*(.+)", rule)` in
`_check_constraint`: anchored at the start, `\w+` groups taken by maximal
munch (shrinking them can never help, as `.` and the operators are not word
characters), whitespace before the operator maximal (no operator starts with
whitespace). Returns the four groups (subject, attribute, operator, raw
value) or `none`. -/
def parseRule (rule : String) : Option (String × String × String × String) :=
  match rule.toList with
  | 'e' :: 'n' :: 't' :: 'i' :: 't' :: 'y' :: '.' :: rest =>
    let subj := rest.takeWhile isWordChar
    let r1 := rest.dropWhile isWordChar
    if subj.isEmpty then none
    else
      match r1 with
      | '.' :: r2 =>
        let attr := r2.takeWhile isWordChar
        let r3 := r2.dropWhile isWordChar
        if attr.isEmpty then none
        else
          match opAndValue (r3.dropWhile isPySpace) with
          | some (op, rawValue) => some (String.mk subj, String.mk attr, op, rawValue)
          | none => none
      | _ => none
  | _ => none

/-- The issue `_check_constraint` emits for a violation: the constraint's
type, `inconsistent` for hard constraints / `warning` for soft, confidence
0.85 (quoting in the description elided). -/
def violationIssue (c : Constraint) (subject attrName operator expected actual : String) :
    ConsistencyIssue :=
  { type := c.type,
    level := if c.is_hard then ConsistencyLevel.INCONSISTENT else ConsistencyLevel.WARNING,
    description := "Constraint violation: " ++ c.description ++ ". Expected " ++ subject
      ++ "." ++ attrName ++ " " ++ operator ++ " " ++ expected ++ ", but found " ++ actual,
    conflicting_facts := [],
    evidence := ["Constraint: " ++ c.rule, "Actual value: " ++ actual],
    suggested_fix := some ("Update " ++ subject ++ " " ++ attrName
      ++ " to match the constraint (" ++ expected ++ ")"),
    confidence := qLit 17 20 }

/-- The fact scan of `_check_constraint`: walk the subject's facts in order;
on the first fact whose predicate equals the attribute and whose stripped
value fails the operator, return the violation issue; facts that satisfy the
constraint are skipped and the scan continues. -/
def checkConstraintLoop (c : Constraint) (subject attrName operator expected : String) :
    List Fact → Option ConsistencyIssue
  | [] => none
  | fact :: rest =>
    if fact.predicate == attrName then
      let actual := pyStrip fact.object
      if evalOp actual operator expected then
        checkConstraintLoop c subject attrName operator expected rest
      else some (violationIssue c subject attrName operator expected actual)
    else checkConstraintLoop c subject attrName operator expected rest

/-- `_check_constraint`: parse the rule (unparseable rules are inert and
yield `None`), strip and unquote the expected value, then scan the matching
subject's facts. -/
def check_constraint (c : Constraint) (facts_by_subject : String → List Fact) :
    Option ConsistencyIssue :=
  match parseRule c.rule with
  | none => none
  | some (subject, attrName, operator, rawValue) =>
    let expected := stripQuotes (pyStrip rawValue)
    checkConstraintLoop c subject attrName operator expected (facts_by_subject subject)

/-- The Python-dict grouping key order: first occurrences, in input order. -/
def firstKeys {α : Type} [BEq α] (seen : List α) : List α → List α
  | [] => []
  | x :: xs => if seen.contains x then firstKeys seen xs else x :: firstKeys (x :: seen) xs

/-- The issue `_check_implicit_constraints` emits for a (subject, predicate)
group with conflicting values: factual, inconsistent, all group fact ids as
`conflicting_facts`, confidence 0.95 (the `{values}` set repr in the
description elided). -/
def implicitIssue (subject predicate : String) (pred_facts : List Fact) : ConsistencyIssue :=
  { type := ConstraintType.FACTUAL,
    level := ConsistencyLevel.INCONSISTENT,
    description := "Multiple conflicting values for " ++ subject ++ "." ++ predicate,
    conflicting_facts := pred_facts.map Fact.id,
    evidence := pred_facts.map (fun f => f.subject ++ " " ++ f.predicate ++ " " ++ f.object),
    suggested_fix := some ("Clarify which value is correct for " ++ subject
      ++ " " ++ predicate),
    confidence := qLit 19 20 }

/-- The `facts_by_subject.get(subject, [])` grouping `validate` builds:
facts of the given subject, in batch order. -/
def factsBySubject (facts : List Fact) : String → List Fact :=
  fun s => facts.filter (fun f => f.subject == s)

/-- One (subject, predicate) group of the implicit pass, in batch order. -/
def predGroup (facts : List Fact) (s p : String) : List Fact :=
  facts.filter (fun f => f.subject == s && f.predicate == p)

/-- `_check_implicit_constraints`: group the batch by subject then predicate
(Python dicts: first-occurrence order), and flag every group with more than
one fact and more than one distinct object value. -/
def check_implicit_constraints (facts : List Fact) : List ConsistencyIssue :=
  ((firstKeys [] (facts.map Fact.subject)).map (fun s =>
    (firstKeys [] ((facts.filter (fun f => f.subject == s)).map Fact.predicate)).filterMap
      (fun p =>
        let pred_facts := predGroup facts s p
        if pred_facts.length > 1 && (firstKeys [] (pred_facts.map Fact.object)).length > 1
        then some (implicitIssue s p pred_facts)
        else none))).flatten

/-- `validate`: one optional issue per registered constraint (registry in
insertion order), then the implicit-contradiction issues. -/
def validate (constraints : List Constraint) (facts : List Fact) : List ConsistencyIssue :=
  (constraints.filterMap (fun c => check_constraint c (factsBySubject facts)))
    ++ check_implicit_constraints facts

end ConstraintEngine

/-! ## The score aggregation of `api/routes/consistency.py::check_consistency`

The route computes its scores in Python `float`s, that is, IEEE-754 binary64.
That rounding is observable at the thresholds: already `1.0 - 6 * 0.1`
evaluates to `0.3999999999999999 < 0.4`, not to `2/5`. Doubles are therefore
modelled by their exact rational values, with every operation and literal
rounded to the nearest representable (53 significand bits, ties to even).
Overflow, subnormal underflow, NaN and signed zero are outside the value
range the scoring code can reach and are not modelled; comparisons of finite
doubles coincide with comparisons of their rational values. -/

namespace Fp64

/-- Round the nonnegative rational `num / den` to the nearest integer, ties
to even. -/
def roundNearestEven (num den : Nat) : Nat :=
  let q := num / den
  let r := num % den
  if 2 * r < den then q
  else if den < 2 * r then q + 1
  else if q % 2 = 0 then q else q + 1

/-- Fuel-bounded binary logarithm (structural recursion, so concrete values
kernel-reduce; the fuel 1300 covers every magnitude below `2 ^ 1100`). -/
def log2Aux : Nat → Nat → Nat
  | 0, _ => 0
  | fuel + 1, n => if 2 ≤ n then log2Aux fuel (n / 2) + 1 else 0

/-- Floor of the base-2 logarithm of a positive rational, exact for
`q ≥ 2 ^ (-200)`. -/
def floorLog2 (q : ℚ) : Int :=
  (log2Aux 1300 ((q.num.natAbs * 2 ^ 200) / q.den) : Int) - 200

/-- Round a positive rational to the nearest value with 53 significand bits:
the significand is the nearest integer to `q · 2 ^ (52 - ⌊log₂ q⌋)`. -/
def roundPos (q : ℚ) : ℚ :=
  let p : Int := 52 - floorLog2 q
  if 0 ≤ p then
    mkRat (roundNearestEven (q.num.natAbs * 2 ^ p.toNat) q.den) (2 ^ p.toNat)
  else
    mkRat ((roundNearestEven q.num.natAbs (q.den * 2 ^ (-p).toNat)) * 2 ^ (-p).toNat) 1

/-- Round a rational to the nearest binary64 value. -/
def roundDouble (q : ℚ) : ℚ :=
  if q = 0 then 0
  else if 0 < q then roundPos q
  else -roundPos (-q)

/-- Double multiplication: the exact product, rounded (stated on num/den so
that concrete values kernel-reduce; see `fmul_eq`). -/
def fmul (a b : ℚ) : ℚ := roundDouble (mkRat (a.num * b.num) (a.den * b.den))

/-- Double subtraction: the exact difference, rounded (see `fsub_eq`). -/
def fsub (a b : ℚ) : ℚ := roundDouble (mkRat (a.num * b.den - b.num * a.den) (a.den * b.den))

/-- Python `float(n)` of a nonnegative integer (exact below `2 ^ 53`). -/
def ofNat (n : Nat) : ℚ := roundDouble (mkRat n 1)

/-- The binary64 value of the literal `0.1`. -/
def lit01 : ℚ := roundDouble (mkRat 1 10)

/-- The binary64 value of the literal `0.15`. -/
def lit015 : ℚ := roundDouble (mkRat 15 100)

/-- The binary64 value of the literal `0.9`. -/
def lit09 : ℚ := roundDouble (mkRat 9 10)

/-- The binary64 value of the literal `0.7`. -/
def lit07 : ℚ := roundDouble (mkRat 7 10)

/-- The binary64 value of the literal `0.4`. -/
def lit04 : ℚ := roundDouble (mkRat 4 10)

theorem mkRat_eq_q (n : Int) (d : Nat) : mkRat n d = (n : ℚ) / (d : ℚ) := by
  rw [Rat.mkRat_eq_divInt, Rat.divInt_eq_div]
  norm_num

/-- `fmul` is double rounding applied to the exact product. -/
theorem fmul_eq (a b : ℚ) : fmul a b = roundDouble (a * b) := by
  rw [fmul, Rat.mul_def, Rat.normalize_eq_mkRat]

/-- `fsub` is double rounding applied to the exact difference. -/
theorem fsub_eq (a b : ℚ) : fsub a b = roundDouble (a - b) := by
  rw [fsub, ← Rat.sub_def']

/-- `ofNat` is double rounding applied to the integer's exact value. -/
theorem ofNat_eq (n : Nat) : ofNat n = roundDouble (n : ℚ) := by
  rw [ofNat, Rat.mkRat_one]
  norm_num

theorem roundNearestEven_le {num den c : Nat} (hden : 0 < den) (h : num ≤ den * c) :
    roundNearestEven num den ≤ c := by
  have hqr : den * (num / den) + num % den = num := Nat.div_add_mod num den
  have hq : num / den ≤ c := by
    have h2 := Nat.div_le_div_right (c := den) h
    rwa [Nat.mul_div_cancel_left _ hden] at h2
  have hq1 : 0 < num % den → num / den + 1 ≤ c := by
    intro hr
    by_contra hc
    have hcq : c ≤ num / den := by omega
    have h3 : den * c ≤ den * (num / den) := Nat.mul_le_mul_left den hcq
    have : num < num := calc
      num ≤ den * c := h
      _ ≤ den * (num / den) := h3
      _ < den * (num / den) + num % den := Nat.lt_add_of_pos_right hr
      _ = num := hqr
    exact absurd this (lt_irrefl _)
  simp only [roundNearestEven]
  split
  · exact hq
  · split
    · exact hq1 (by omega)
    · split
      · exact hq
      · exact hq1 (by omega)

theorem log2Aux_le {k n : Nat} (fuel : Nat) (h : n < 2 ^ (k + 1)) : log2Aux fuel n ≤ k := by
  induction fuel generalizing k n with
  | zero => exact Nat.zero_le k
  | succ fuel ih =>
    by_cases h2 : 2 ≤ n
    · have hk : 1 ≤ k := by
        by_contra hk0
        have : k = 0 := by omega
        subst this
        simp at h
        omega
      obtain ⟨k', rfl⟩ : ∃ k', k = k' + 1 := ⟨k - 1, by omega⟩
      have hdiv : n / 2 < 2 ^ (k' + 1) := by
        rw [Nat.div_lt_iff_lt_mul (by norm_num)]
        calc n < 2 ^ (k' + 1 + 1) := h
          _ = 2 ^ (k' + 1) * 2 := by ring
      simp only [log2Aux, if_pos h2]
      exact Nat.succ_le_succ (ih hdiv)
    · simp only [log2Aux, if_neg h2]
      exact Nat.zero_le k

theorem natAbs_le_den {q : ℚ} (h0 : 0 < q) (h1 : q ≤ 1) : q.num.natAbs ≤ q.den := by
  have hden : (0 : ℚ) < (q.den : ℚ) := by
    exact_mod_cast Nat.pos_of_ne_zero q.den_nz
  have hdiv : (q.num : ℚ) / (q.den : ℚ) ≤ 1 := by
    rw [Rat.num_div_den q]
    exact h1
  rw [div_le_one hden] at hdiv
  have hnum : q.num ≤ (q.den : Int) := by exact_mod_cast hdiv
  have hpos : 0 ≤ q.num := Rat.num_nonneg.mpr (le_of_lt h0)
  omega

theorem floorLog2_nonpos {q : ℚ} (h0 : 0 < q) (h1 : q ≤ 1) : floorLog2 q ≤ 0 := by
  have hnum := natAbs_le_den h0 h1
  have hscaled : q.num.natAbs * 2 ^ 200 / q.den ≤ 2 ^ 200 := by
    have h2 : q.num.natAbs * 2 ^ 200 ≤ q.den * 2 ^ 200 :=
      Nat.mul_le_mul_right _ hnum
    have h3 := Nat.div_le_div_right (c := q.den) h2
    rwa [Nat.mul_div_cancel_left _ (Nat.pos_of_ne_zero q.den_nz)] at h3
  have hlog : log2Aux 1300 (q.num.natAbs * 2 ^ 200 / q.den) ≤ 200 :=
    log2Aux_le 1300 (by omega)
  simp only [floorLog2]
  omega

theorem roundPos_nonneg (q : ℚ) : 0 ≤ roundPos q := by
  simp only [roundPos]
  split
  · rw [mkRat_eq_q]
    positivity
  · rw [mkRat_eq_q]
    positivity

theorem roundPos_le_one {q : ℚ} (h0 : 0 < q) (h1 : q ≤ 1) : roundPos q ≤ 1 := by
  have he := floorLog2_nonpos h0 h1
  have hp : (0 : Int) ≤ 52 - floorLog2 q := by omega
  simp only [roundPos, if_pos hp]
  have hnum := natAbs_le_den h0 h1
  have hm : roundNearestEven (q.num.natAbs * 2 ^ (52 - floorLog2 q).toNat) q.den
      ≤ 2 ^ (52 - floorLog2 q).toNat := by
    exact roundNearestEven_le (Nat.pos_of_ne_zero q.den_nz)
      (Nat.mul_le_mul_right _ hnum)
  rw [mkRat_eq_q]
  rw [div_le_one (by positivity)]
  exact_mod_cast hm

theorem roundDouble_nonneg {q : ℚ} (h : 0 ≤ q) : 0 ≤ roundDouble q := by
  simp only [roundDouble]
  split
  · exact le_refl 0
  · split
    · exact roundPos_nonneg q
    · rename_i hne hnp
      exact absurd (lt_of_le_of_ne h (Ne.symm hne)) hnp

theorem roundDouble_le_one {q : ℚ} (h : q ≤ 1) : roundDouble q ≤ 1 := by
  simp only [roundDouble]
  split
  · norm_num
  · split
    · rename_i hne hpos
      exact roundPos_le_one hpos h
    · rename_i hne hnp
      have h2 := roundPos_nonneg (-q)
      linarith

/-- The model reproduces the doubles the route's arithmetic produces: the
rounded literals, the inexact `6 * 0.1` and `1.0 - 0.6000000000000001` (which
lands strictly below the double `0.4`), and the inexact `1.0 - 3 * 0.15`. -/
theorem double_values : lit01 = mkRat 3602879701896397 (2 ^ 55)
    ∧ lit015 = mkRat 5404319552844595 (2 ^ 55)
    ∧ lit09 = mkRat 8106479329266893 (2 ^ 53)
    ∧ lit07 = mkRat 3152519739159347 (2 ^ 52)
    ∧ lit04 = mkRat 3602879701896397 (2 ^ 53)
    ∧ fmul (ofNat 6) lit01 = mkRat 1351079888211149 (2 ^ 51)
    ∧ fsub 1 (fmul (ofNat 6) lit01) = mkRat 900719925474099 (2 ^ 51)
    ∧ ¬ (lit04 ≤ fsub 1 (fmul (ofNat 6) lit01))
    ∧ fmul (ofNat 3) lit015 = mkRat 2026619832316723 (2 ^ 52)
    ∧ fsub 1 (fmul (ofNat 3) lit015) = mkRat 2476979795053773 (2 ^ 52) := by
  refine ⟨?_, ?_, ?_, ?_, ?_, ?_, ?_, ?_, ?_, ?_⟩ <;> decide

end Fp64

namespace ConsistencyRoute

/-- The fields of the built `ConsistencyReport` that the scoring lines set. -/
structure Report where
  overall_score : ℚ
  level : ConsistencyLevel
  facts_checked : Nat
  entities_tracked : Nat
  factual_score : ℚ
  temporal_score : ℚ
  causal_score : ℚ
  spatial_score : ℚ
  behavioral_score : ℚ
  relational_score : ℚ
deriving DecidableEq, Repr

/-- `len([i for i in issues if i.type == t])`. -/
def countType (issues : List ConsistencyIssue) (t : ConstraintType) : Nat :=
  (issues.filter (fun i => i.type == t)).length

/-- The report's per-dimension score field for each issue type. -/
def Report.dimScore (r : Report) : ConstraintType → ℚ
  | ConstraintType.FACTUAL => r.factual_score
  | ConstraintType.TEMPORAL => r.temporal_score
  | ConstraintType.CAUSAL => r.causal_score
  | ConstraintType.SPATIAL => r.spatial_score
  | ConstraintType.BEHAVIORAL => r.behavioral_score
  | ConstraintType.RELATIONAL => r.relational_score

/-- The score-calculation tail of `check_consistency`: the overall score with
its empty-check special case, the level thresholds, and the six per-dimension
scores (clamped at report construction). All arithmetic is the double
arithmetic Python performs (`Fp64`); `issue_count * 0.1` first converts the
integer count to a double. -/
def buildReport (issues : List ConsistencyIssue) (factCount entityCount : Nat) : Report :=
  let total_checks := factCount + entityCount
  let issue_count := issues.length
  let overall_score : ℚ :=
    if total_checks > 0 then max 0 (Fp64.fsub 1 (Fp64.fmul (Fp64.ofNat issue_count) Fp64.lit01))
    else 1
  let level :=
    if overall_score ≥ Fp64.lit09 then ConsistencyLevel.CONSISTENT
    else if overall_score ≥ Fp64.lit07 then ConsistencyLevel.WARNING
    else if overall_score ≥ Fp64.lit04 then ConsistencyLevel.INCONSISTENT
    else ConsistencyLevel.CRITICAL
  let factual_score : ℚ :=
    Fp64.fsub 1 (Fp64.fmul (Fp64.ofNat (countType issues ConstraintType.FACTUAL)) Fp64.lit015)
  let temporal_score : ℚ :=
    Fp64.fsub 1 (Fp64.fmul (Fp64.ofNat (countType issues ConstraintType.TEMPORAL)) Fp64.lit015)
  let causal_score : ℚ :=
    Fp64.fsub 1 (Fp64.fmul (Fp64.ofNat (countType issues ConstraintType.CAUSAL)) Fp64.lit015)
  let spatial_score : ℚ :=
    Fp64.fsub 1 (Fp64.fmul (Fp64.ofNat (countType issues ConstraintType.SPATIAL)) Fp64.lit015)
  let behavioral_score : ℚ :=
    Fp64.fsub 1 (Fp64.fmul (Fp64.ofNat (countType issues ConstraintType.BEHAVIORAL)) Fp64.lit015)
  let relational_score : ℚ :=
    Fp64.fsub 1 (Fp64.fmul (Fp64.ofNat (countType issues ConstraintType.RELATIONAL)) Fp64.lit015)
  { overall_score := max 0 (min 1 overall_score),
    level := level,
    facts_checked := factCount,
    entities_tracked := entityCount,
    factual_score := max 0 factual_score,
    temporal_score := max 0 temporal_score,
    causal_score := max 0 causal_score,
    spatial_score := max 0 spatial_score,
    behavioral_score := max 0 behavioral_score,
    relational_score := max 0 relational_score }

end ConsistencyRoute

/-! ## The entity tracker (`core/entity_tracker.py`)

The archetype trait sets, mood sets and far-location set are Python `set`
literals whose iteration order is unspecified; they are modelled as lists in
the source's literal order. Only the order and grouping of equally-shaped
warning issues can depend on that order — no claim does. -/

namespace EntityTracker

/-- `EntityState` dataclass. -/
structure EntityState where
  entity_id : Nat
  position : Int
  attributes : List (String × String) := []
  location : Option String := none
  mood : Option String := none
  alive : Bool := true
deriving DecidableEq, Repr

/-- `EntityProfile` dataclass. -/
structure EntityProfile where
  entity : Entity
  states : List EntityState := []
  behaviors : List String := []
  first_mention : Int := 0
  last_mention : Int := 0
  mention_count : Nat := 0
deriving DecidableEq, Repr

/-- The `EntityTracker` object state: `_profiles` and `_name_to_id`. -/
structure Tracker where
  profiles : List (Nat × EntityProfile) := []
  name_to_id : List (String × Nat) := []
deriving DecidableEq, Repr

/-- `POSITIVE_MOODS`. -/
def POSITIVE_MOODS : List String :=
  ["happy", "joyful", "excited", "content", "peaceful", "loving"]

/-- `NEGATIVE_MOODS`. -/
def NEGATIVE_MOODS : List String :=
  ["sad", "angry", "fearful", "anxious", "depressed", "hateful"]

/-- `ARCHETYPE_BEHAVIORS`. -/
def ARCHETYPE_BEHAVIORS : List (String × List String) :=
  [("hero", ["brave", "selfless", "determined", "honest"]),
   ("villain", ["cunning", "selfish", "ruthless", "deceptive"]),
   ("mentor", ["wise", "patient", "guiding", "experienced"]),
   ("sidekick", ["loyal", "supportive", "humorous", "brave"])]

/-- `_get_opposite_behavior`'s table. -/
def opposites : List (String × String) :=
  [("brave", "cowardly"), ("selfless", "selfish"), ("honest", "deceptive"),
   ("cunning", "naive"), ("wise", "foolish"), ("patient", "impatient"),
   ("loyal", "treacherous")]

/-- The `action_words` list in `_check_alive_status`. -/
def ACTION_WORDS : List String :=
  ["walked", "said", "ran", "took", "grabbed", "smiled", "laughed", "fought",
   "ate", "drank"]

/-- `track_entity`: create a profile on first sight, else bump the mention
counters. -/
def track_entity (t : Tracker) (entity : Entity) (position : Int) : Tracker :=
  match t.profiles.lookup entity.id with
  | none =>
    let newProfile : EntityProfile :=
      { entity := entity, first_mention := position, last_mention := position,
        mention_count := 1 }
    { profiles := KnowledgeGraph.dictSet t.profiles entity.id newProfile,
      name_to_id := KnowledgeGraph.dictSet t.name_to_id (pyLower entity.name) entity.id }
  | some profile =>
    let updProfile : EntityProfile :=
      { profile with
        last_mention := max profile.last_mention position,
        mention_count := profile.mention_count + 1 }
    { t with profiles := KnowledgeGraph.dictSet t.profiles entity.id updProfile }

/-- The opposing-moods warning of `_check_entity_behavior`. -/
def moodIssue (entity : Entity) (sentence : String) : ConsistencyIssue :=
  { type := ConstraintType.BEHAVIORAL,
    level := ConsistencyLevel.WARNING,
    description := "Contradictory emotional state for " ++ entity.name
      ++ ": Both positive and negative moods in same context",
    evidence := [pyStrip sentence],
    suggested_fix := some ("Clarify " ++ entity.name ++ " emotional state"),
    confidence := qLit 3 5 }

/-- The archetype-contradiction warning of `_check_entity_behavior`. -/
def archetypeIssue (entity : Entity) (archetype expected opposite sentence : String) :
    ConsistencyIssue :=
  { type := ConstraintType.BEHAVIORAL,
    level := ConsistencyLevel.WARNING,
    description := entity.name ++ " (" ++ archetype ++ ") showing " ++ opposite
      ++ " behavior, which contradicts expected " ++ expected ++ " trait",
    evidence := [pyStrip sentence],
    suggested_fix := some "Either justify the behavioral change or adjust the action",
    confidence := qLit 7 10 }

/-- `_check_entity_behavior` (receives the already-lowercased text): mood
contradictions per entity sentence, then archetype contradictions. -/
def check_entity_behavior (t : Tracker) (entity : Entity) (text : String) :
    List ConsistencyIssue :=
  match t.profiles.lookup entity.id with
  | none => []
  | some _ =>
    let entity_name := pyLower entity.name
    if ¬ strContains text entity_name then []
    else
      let sentences := pySplit text '.'
      let entity_sentences := sentences.filter (fun s => strContains (pyLower s) entity_name)
      let moodIssues := entity_sentences.filterMap (fun sentence =>
        if POSITIVE_MOODS.any (fun mood => strContains sentence mood)
            && NEGATIVE_MOODS.any (fun mood => strContains sentence mood)
        then some (moodIssue entity sentence)
        else none)
      let archIssues :=
        match entity.attributes.lookup ("archetype") with
        | none => []
        | some archetype =>
          match ARCHETYPE_BEHAVIORS.lookup archetype with
          | none => []
          | some expected_behaviors =>
            (entity_sentences.map (fun sentence =>
              expected_behaviors.filterMap (fun expected =>
                match opposites.lookup expected with
                | none => none
                | some opposite =>
                  if strContains sentence opposite then
                    some (archetypeIssue entity archetype expected opposite sentence)
                  else none))).flatten
      moodIssues ++ archIssues

/-- The resurrection issue of `_check_alive_status`: behavioral, critical,
confidence 0.9. -/
def resurrectionIssue (entity : Entity) (death_position i : Int) (sentence : String) :
    ConsistencyIssue :=
  { type := ConstraintType.BEHAVIORAL,
    level := ConsistencyLevel.CRITICAL,
    description := entity.name ++ " is performing actions after being marked as dead",
    evidence := ["Death at position " ++ toString death_position,
      "Action at position " ++ toString i ++ ": "
        ++ String.mk ((pyStrip sentence).toList.take 50) ++ "..."],
    suggested_fix := some ("Either revive " ++ entity.name ++ " explicitly or change the action"),
    confidence := qLit 9 10 }

/-- The sentence scan of `_check_alive_status` for one not-alive state:
return on the first later sentence that mentions the entity and contains an
action word. -/
def aliveScanSentences (entity : Entity) (death_position : Int) :
    List String → Int → Option ConsistencyIssue
  | [], _ => none
  | sentence :: rest, i =>
    if i > death_position && strContains (pyLower sentence) (pyLower entity.name) then
      match ACTION_WORDS.find? (fun action => strContains (pyLower sentence) action) with
      | some _ => some (resurrectionIssue entity death_position i sentence)
      | none => aliveScanSentences entity death_position rest (i + 1)
    else aliveScanSentences entity death_position rest (i + 1)

/-- The state loop of `_check_alive_status`: scan the text once per not-alive
state until a hit. -/
def aliveLoopStates (entity : Entity) (text : String) :
    List EntityState → Option ConsistencyIssue
  | [] => none
  | state :: rest =>
    if state.alive then aliveLoopStates entity text rest
    else
      match aliveScanSentences entity state.position (pySplit text '.') 0 with
      | some issue => some issue
      | none => aliveLoopStates entity text rest

/-- `_check_alive_status` (receives the original-case text). -/
def check_alive_status (t : Tracker) (entity : Entity) (text : String) :
    Option ConsistencyIssue :=
  match t.profiles.lookup entity.id with
  | none => none
  | some profile => aliveLoopStates entity text profile.states

/-- The far-apart location pair table of `_check_location_consistency`
(a Python set literal; any matching pair yields the same issue fields, so the
unspecified iteration order is unobservable). -/
def far_locations : List (String × String) :=
  [("paris", "tokyo"), ("new york", "london"), ("australia", "europe"),
   ("earth", "mars"), ("inside", "outside the country")]

/-- The teleportation warning: spatial, warning, confidence 0.7. -/
def teleportIssue (entity : Entity) (prev_loc curr_loc : String) (pPos cPos : Int) :
    ConsistencyIssue :=
  { type := ConstraintType.SPATIAL,
    level := ConsistencyLevel.WARNING,
    description := entity.name ++ " moved from " ++ prev_loc ++ " to " ++ curr_loc
      ++ " without described travel",
    evidence := ["Previous location: " ++ prev_loc ++ " (position " ++ toString pPos ++ ")",
      "Current location: " ++ curr_loc ++ " (position " ++ toString cPos ++ ")"],
    suggested_fix := some "Add travel description or adjust timeline",
    confidence := qLit 7 10 }

/-- The adjacent-pair scan of `_check_location_consistency` (each stored
location is tested as a substring of the table entries, as in the source). -/
def locLoop (entity : Entity) : EntityState → List EntityState → Option ConsistencyIssue
  | _, [] => none
  | prevState, currState :: rest =>
    let prev_loc := pyLower (prevState.location.getD "")
    let curr_loc := pyLower (currState.location.getD "")
    match far_locations.find? (fun lp =>
      (strContains lp.1 prev_loc && strContains lp.2 curr_loc)
      || (strContains lp.2 prev_loc && strContains lp.1 curr_loc)) with
    | some _ =>
      some (teleportIssue entity prev_loc curr_loc prevState.position currState.position)
    | none => locLoop entity currState rest

/-- `_check_location_consistency`. -/
def check_location_consistency (t : Tracker) (entity : Entity) (_text : String) :
    Option ConsistencyIssue :=
  match t.profiles.lookup entity.id with
  | none => none
  | some profile =>
    let location_states := profile.states.filter (fun s => (s.location.getD "") != "")
    if location_states.length < 2 then none
    else
      match location_states with
      | [] => none
      | s0 :: rest => locLoop entity s0 rest

/-- `check_behavior`: track every entity, then per entity collect the
behavioral issues, the optional resurrection issue and the optional
teleportation issue. Returns the mutated tracker and the issue list. -/
def check_behavior (t : Tracker) (entities : List Entity) (text : String) :
    Tracker × List ConsistencyIssue :=
  let t' := entities.foldl (fun acc e => track_entity acc e 0) t
  let text_lower := pyLower text
  (t', (entities.map (fun e =>
    check_entity_behavior t' e text_lower
    ++ ((check_alive_status t' e text).toList)
    ++ ((check_location_consistency t' e text).toList))).flatten)

end EntityTracker

/-! ## The causality propagator (`causality/propagator.py`) -/

namespace Propagator

open KnowledgeGraph

/-- Keys of the facts dict. -/
def factKeys (kg : KnowledgeGraph) : List Nat := kg.facts.map Prod.fst

theorem lookup_mem_keys {l : List (Nat × Fact)} {i : Nat} {f : Fact}
    (h : l.lookup i = some f) : i ∈ l.map Prod.fst := by
  induction l with
  | nil => simp [List.lookup] at h
  | cons p rest ih =>
    obtain ⟨k, v⟩ := p
    by_cases hk : i = k
    · simp [hk]
    · rw [List.lookup_cons, beq_false_of_ne hk] at h
      simp only [List.map_cons, List.mem_cons]
      exact Or.inr (ih h)

theorem keys_setOne (l : List (Nat × Fact)) (i : Nat) (st : FactValidity) :
    (l.map (fun p => if p.1 = i then (p.1, { p.2 with validity_status := st }) else p)).map
      Prod.fst = l.map Prod.fst := by
  induction l with
  | nil => rfl
  | cons p ps ih => by_cases hp : p.1 = i <;> simp [hp, ih]

theorem factKeys_setStatus (kg : KnowledgeGraph) (i : Nat) (st : FactValidity) :
    factKeys (setStatus kg i st) = factKeys kg :=
  keys_setOne kg.facts i st

theorem countP_not_mem_lt {keys : List Nat} {v : List Nat} {cur : Nat}
    (hmem : cur ∈ keys) (hnv : cur ∉ v) :
    keys.countP (fun k => decide (k ∉ v ++ [cur])) < keys.countP (fun k => decide (k ∉ v)) := by
  induction keys with
  | nil => simp at hmem
  | cons head rest ih =>
    rw [List.countP_cons, List.countP_cons]
    have hle : rest.countP (fun x => decide (x ∉ v ++ [cur])) ≤
        rest.countP (fun x => decide (x ∉ v)) := by
      apply List.countP_mono_left
      intro x hx
      simp only [decide_eq_true_eq, List.mem_append, List.mem_singleton]
      tauto
    rcases List.mem_cons.mp hmem with h | h
    · have h1 : (if (decide (head ∉ v ++ [cur])) = true then 1 else 0) = 0 := by
        simp [← h]
      have h2 : (if (decide (head ∉ v)) = true then 1 else 0) = 1 := by
        simp [← h, hnv]
      omega
    · have hlt := ih h
      have hhead : (if (decide (head ∉ v ++ [cur])) = true then 1 else 0) ≤
          (if (decide (head ∉ v)) = true then 1 else 0) := by
        by_cases hh : head ∈ v
        · simp [hh]
        · by_cases hc : head = cur <;> simp [hh, hc]
      omega

/-- The shared BFS loop body of `invalidate_fact` / `propagate_change`: pop the
queue front; skip already-visited ids and missing facts; otherwise set the
fact's validity to `st`, record the id, and enqueue its not-yet-visited
dependents. -/
def propLoop (st : FactValidity) (kg : KnowledgeGraph) (queue : List Nat)
    (visited : List Nat) : KnowledgeGraph × List Nat :=
  match queue with
  | [] => (kg, visited)
  | current :: rest =>
    if current ∈ visited then
      propLoop st kg rest visited
    else if h : (kg.facts.lookup current).isSome then
      let kg' := setStatus kg current st
      let visited' := visited ++ [current]
      let newIds := ((get_dependents kg' current).map Fact.id).filter
        (fun depId => decide (depId ∉ visited'))
      propLoop st kg' (rest ++ newIds) visited'
    else
      propLoop st kg rest visited
termination_by ((factKeys kg).countP (fun k => decide (k ∉ visited)), queue.length)
decreasing_by
  · apply Prod.Lex.right
    simp
  · apply Prod.Lex.left
    have hcur : current ∈ factKeys kg := by
      obtain ⟨f, hf⟩ := Option.isSome_iff_exists.mp h
      exact lookup_mem_keys hf
    rw [show factKeys (setStatus kg current st) = factKeys kg from
      factKeys_setStatus kg current st]
    exact countP_not_mem_lt hcur (by assumption)
  · apply Prod.Lex.right
    simp

/-- `Propagator.invalidate_fact`. -/
def invalidate_fact (kg : KnowledgeGraph) (fact_id : Nat) : KnowledgeGraph × List Nat :=
  propLoop FactValidity.INVALID kg [fact_id] []

/-- `Propagator.propagate_change`: the seed is not enqueued; its immediate
dependents seed the dirty-marking BFS, and the `{"dirty": ...}` id list is
returned. -/
def propagate_change (kg : KnowledgeGraph) (fact_id : Nat) : KnowledgeGraph × List Nat :=
  let root_dependents := kg.get_dependents fact_id
  propLoop FactValidity.DIRTY kg (root_dependents.map Fact.id) []

/-- The ids the BFS traverses from a fact: the ids of its dependents as the
store resolves them. -/
def dependentIds (kg : KnowledgeGraph) (i : Nat) : List Nat :=
  (get_dependents kg i).map Fact.id

/-- One reverse-dependency edge: `w` is a resolved dependent of `u`. -/
def depEdge (kg : KnowledgeGraph) (u w : Nat) : Prop :=
  w ∈ dependentIds kg u

instance (kg : KnowledgeGraph) (u w : Nat) : Decidable (depEdge kg u w) :=
  inferInstanceAs (Decidable (w ∈ dependentIds kg u))

/-- The two stores agree on everything the BFS reads: which fact ids resolve
(and to which `id` field), and the whole reverse-dependency index. -/
def shapeEq (kg kg' : KnowledgeGraph) : Prop :=
  (∀ i, (kg.facts.lookup i).map Fact.id = (kg'.facts.lookup i).map Fact.id) ∧
  kg.dependent_index = kg'.dependent_index

theorem shapeEq_refl (kg : KnowledgeGraph) : shapeEq kg kg :=
  ⟨fun _ => rfl, rfl⟩

theorem shapeEq_symm {kg kg' : KnowledgeGraph} (h : shapeEq kg kg') : shapeEq kg' kg :=
  ⟨fun i => (h.1 i).symm, h.2.symm⟩

theorem shapeEq_trans {k1 k2 k3 : KnowledgeGraph} (h : shapeEq k1 k2) (h' : shapeEq k2 k3) :
    shapeEq k1 k3 :=
  ⟨fun i => (h.1 i).trans (h'.1 i), h.2.trans h'.2⟩

theorem lookup_setOne (l : List (Nat × Fact)) (i j : Nat) (st : FactValidity) :
    (l.map (fun p => if p.1 = j then (p.1, { p.2 with validity_status := st }) else p)).lookup i
      = if i = j then (l.lookup i).map (fun f => { f with validity_status := st })
        else l.lookup i := by
  induction l with
  | nil => split <;> simp
  | cons p ps ih =>
    obtain ⟨k, v⟩ := p
    by_cases hik : i = k
    · subst hik
      by_cases hkj : i = j
      · subst hkj
        simp [List.lookup_cons]
      · simp [List.lookup_cons, hkj]
    · have hbeq : (i == k) = false := beq_false_of_ne hik
      by_cases hkj : k = j
      · subst hkj
        simp [List.lookup_cons, hbeq, hik, ih]
      · simp [List.lookup_cons, hbeq, hkj, ih, beq_false_of_ne (Ne.symm hkj)]

theorem get_fact_setStatus (kg : KnowledgeGraph) (j : Nat) (st : FactValidity) (i : Nat) :
    get_fact (setStatus kg j st) i
      = if i = j then (get_fact kg i).map (fun f => { f with validity_status := st })
        else get_fact kg i :=
  lookup_setOne kg.facts i j st

theorem shapeEq_setStatus (kg : KnowledgeGraph) (j : Nat) (st : FactValidity) :
    shapeEq kg (setStatus kg j st) := by
  refine ⟨fun i => ?_, rfl⟩
  have h := get_fact_setStatus kg j st i
  unfold get_fact at h
  rw [h]
  split
  · cases kg.facts.lookup i <;> rfl
  · rfl

theorem dependentIds_congr {kg kg' : KnowledgeGraph} (h : shapeEq kg kg') (i : Nat) :
    dependentIds kg i = dependentIds kg' i := by
  unfold dependentIds get_dependents
  rw [List.map_filterMap, List.map_filterMap, h.2]
  congr 1
  funext fid
  exact h.1 fid

theorem isSome_congr {kg kg' : KnowledgeGraph} (h : shapeEq kg kg') (i : Nat) :
    (kg.facts.lookup i).isSome = (kg'.facts.lookup i).isSome := by
  have h1 := h.1 i
  cases hx : kg.facts.lookup i <;> cases hy : kg'.facts.lookup i <;>
    simp_all

theorem propLoop_nil (st : FactValidity) (kg : KnowledgeGraph) (v : List Nat) :
    propLoop st kg [] v = (kg, v) := by
  rw [propLoop]

theorem propLoop_step_mark (st : FactValidity) (kg : KnowledgeGraph) (cur : Nat)
    (rest v : List Nat) (hmem : cur ∉ v) (hsome : (kg.facts.lookup cur).isSome) :
    propLoop st kg (cur :: rest) v
      = propLoop st (setStatus kg cur st)
          (rest ++ (dependentIds (setStatus kg cur st) cur).filter
            (fun depId => decide (depId ∉ v ++ [cur])))
          (v ++ [cur]) := by
  rw [propLoop]
  simp only [if_neg hmem, dif_pos hsome]
  rfl

theorem propLoop_snd_congr (st st' : FactValidity) (kg : KnowledgeGraph)
    (q v : List Nat) :
    ∀ kg', shapeEq kg kg' → (propLoop st kg q v).2 = (propLoop st' kg' q v).2 := by
  induction kg, q, v using propLoop.induct st with
  | case1 kg v =>
    intro kg' _
    rw [propLoop, propLoop]
  | case2 kg v current rest hmem ih =>
    intro kg' hsh
    rw [propLoop, propLoop]
    simp only [if_pos hmem]
    exact ih kg' hsh
  | case3 kg v current rest hmem hsome kg1 v1 nids ih =>
    intro kg' hsh
    rw [propLoop, propLoop]
    have hsome' : (kg'.facts.lookup current).isSome := (isSome_congr hsh current) ▸ hsome
    simp only [if_neg hmem, dif_pos hsome, dif_pos hsome']
    have hsh2 : shapeEq (setStatus kg current st) (setStatus kg' current st') :=
      shapeEq_trans (shapeEq_symm (shapeEq_setStatus kg current st))
        (shapeEq_trans hsh (shapeEq_setStatus kg' current st'))
    have hids : dependentIds (setStatus kg current st) current
        = dependentIds (setStatus kg' current st') current := dependentIds_congr hsh2 current
    have heq : (List.map Fact.id ((setStatus kg' current st').get_dependents current))
        = (List.map Fact.id ((setStatus kg current st).get_dependents current)) := hids.symm
    rw [heq]
    exact ih _ hsh2
  | case4 kg v current rest hmem hnone ih =>
    intro kg' hsh
    rw [propLoop, propLoop]
    have hnone' : ¬ (kg'.facts.lookup current).isSome := (isSome_congr hsh current) ▸ hnone
    simp only [if_neg hmem, dif_neg hnone, dif_neg hnone']
    exact ih kg' hsh

theorem propLoop_shape (st : FactValidity) (kg : KnowledgeGraph) (q v : List Nat) :
    shapeEq kg (propLoop st kg q v).1 := by
  induction kg, q, v using propLoop.induct st with
  | case1 kg v => rw [propLoop]; exact shapeEq_refl kg
  | case2 kg v current rest hmem ih =>
    rw [propLoop]; simp only [if_pos hmem]; exact ih
  | case3 kg v current rest hmem hsome kg1 v1 nids ih =>
    rw [propLoop]
    simp only [if_neg hmem, dif_pos hsome]
    exact shapeEq_trans (shapeEq_setStatus kg current st) ih
  | case4 kg v current rest hmem hnone ih =>
    rw [propLoop]; simp only [if_neg hmem, dif_neg hnone]; exact ih

theorem propLoop_nodup (st : FactValidity) (kg : KnowledgeGraph) (q v : List Nat)
    (hv : v.Nodup) : ((propLoop st kg q v).2).Nodup := by
  induction kg, q, v using propLoop.induct st with
  | case1 kg v => rw [propLoop]; exact hv
  | case2 kg v current rest hmem ih => rw [propLoop]; simp only [if_pos hmem]; exact ih hv
  | case3 kg v current rest hmem hsome kg1 v1 nids ih =>
    rw [propLoop]
    simp only [if_neg hmem, dif_pos hsome]
    refine ih ?_
    show (v ++ [current]).Nodup
    simp [List.nodup_append, hv, hmem]
  | case4 kg v current rest hmem hnone ih =>
    rw [propLoop]; simp only [if_neg hmem, dif_neg hnone]; exact ih hv

theorem propLoop_visited_sub (st : FactValidity) (kg : KnowledgeGraph) (q v : List Nat) :
    ∀ x ∈ v, x ∈ (propLoop st kg q v).2 := by
  induction kg, q, v using propLoop.induct st with
  | case1 kg v => rw [propLoop]; exact fun x hx => hx
  | case2 kg v current rest hmem ih => rw [propLoop]; simp only [if_pos hmem]; exact ih
  | case3 kg v current rest hmem hsome kg1 v1 nids ih =>
    rw [propLoop]
    simp only [if_neg hmem, dif_pos hsome]
    intro x hx
    exact ih x (show x ∈ v ++ [current] by simp [hx])
  | case4 kg v current rest hmem hnone ih =>
    rw [propLoop]; simp only [if_neg hmem, dif_neg hnone]; exact ih

theorem propLoop_lookup_of_not_mem (st : FactValidity) (kg : KnowledgeGraph)
    (q v : List Nat) (x : Nat) (hx : x ∉ (propLoop st kg q v).2) :
    ((propLoop st kg q v).1).facts.lookup x = kg.facts.lookup x := by
  induction kg, q, v using propLoop.induct st with
  | case1 kg v => rw [propLoop] at hx ⊢
  | case2 kg v current rest hmem ih =>
    rw [propLoop] at hx ⊢
    simp only [if_pos hmem] at hx ⊢
    exact ih hx
  | case3 kg v current rest hmem hsome kg1 v1 nids ih =>
    rw [propLoop] at hx ⊢
    simp only [if_neg hmem, dif_pos hsome] at hx ⊢
    have hxcur : x ≠ current := by
      intro hxe
      exact hx (propLoop_visited_sub st _ _ _ x (by simp [hxe]))
    rw [ih hx]
    have h := lookup_setOne kg.facts x current st
    rw [if_neg hxcur] at h
    exact h
  | case4 kg v current rest hmem hnone ih =>
    rw [propLoop] at hx ⊢
    simp only [if_neg hmem, dif_neg hnone] at hx ⊢
    exact ih hx

theorem lookup_mem {l : List (Nat × Fact)} {k : Nat} {f : Fact}
    (h : l.lookup k = some f) : (k, f) ∈ l := by
  induction l with
  | nil => simp [List.lookup] at h
  | cons p rest ih =>
    obtain ⟨k', v⟩ := p
    by_cases hk : k = k'
    · subst hk
      rw [List.lookup_cons, beq_self_eq_true] at h
      simp only at h
      simp [Option.some.inj h]
    · rw [List.lookup_cons, beq_false_of_ne hk] at h
      exact List.mem_cons.mpr (Or.inr (ih h))

theorem edge_target_isSome {kg : KnowledgeGraph}
    (hwf : ∀ p ∈ kg.facts, (p.2).id = p.1) {u w : Nat} (h : depEdge kg u w) :
    (kg.facts.lookup w).isSome := by
  unfold depEdge dependentIds get_dependents at h
  obtain ⟨f, hf, hfw⟩ := List.mem_map.mp h
  obtain ⟨fid, _, hfid⟩ := List.mem_filterMap.mp hf
  have hk : f.id = fid := hwf (fid, f) (lookup_mem hfid)
  rw [← hfw, hk, hfid]
  rfl

theorem propLoop_queue_mem (st : FactValidity) (kg : KnowledgeGraph) (q v : List Nat) :
    ∀ x ∈ q, (kg.facts.lookup x).isSome → x ∈ (propLoop st kg q v).2 := by
  induction kg, q, v using propLoop.induct st with
  | case1 kg v => intro x hx; simp at hx
  | case2 kg v current rest hmem ih =>
    intro x hx hsx
    rw [propLoop]
    simp only [if_pos hmem]
    rcases List.mem_cons.mp hx with h | h
    · subst h
      exact propLoop_visited_sub st kg rest v x hmem
    · exact ih x h hsx
  | case3 kg v current rest hmem hsome kg1 v1 nids ih =>
    intro x hx hsx
    rw [propLoop]
    simp only [if_neg hmem, dif_pos hsome]
    rcases List.mem_cons.mp hx with h | h
    · subst h
      exact propLoop_visited_sub st _ _ _ x (by
        show x ∈ v ++ [x]
        simp)
    · refine ih x (List.mem_append_left _ h) ?_
      rw [isSome_congr (shapeEq_symm (shapeEq_setStatus kg current st)) x]
      exact hsx
  | case4 kg v current rest hmem hnone ih =>
    intro x hx hsx
    rw [propLoop]
    simp only [if_neg hmem, dif_neg hnone]
    rcases List.mem_cons.mp hx with h | h
    · subst h
      exact absurd hsx hnone
    · exact ih x h hsx

theorem propLoop_closed (st : FactValidity) (kg0 : KnowledgeGraph)
    (hwf0 : ∀ p ∈ kg0.facts, (p.2).id = p.1) (kg : KnowledgeGraph) (q v : List Nat) :
    shapeEq kg0 kg →
    (∀ u ∈ v, ∀ w, depEdge kg0 u w → w ∈ v ∨ w ∈ q) →
    ∀ u ∈ (propLoop st kg q v).2, ∀ w, depEdge kg0 u w → w ∈ (propLoop st kg q v).2 := by
  induction kg, q, v using propLoop.induct st with
  | case1 kg v =>
    intro _ hinv u hu w hw
    rw [propLoop] at hu ⊢
    rcases hinv u hu w hw with h | h
    · exact h
    · simp at h
  | case2 kg v current rest hmem ih =>
    intro hsh hinv
    rw [propLoop]
    simp only [if_pos hmem]
    refine ih hsh ?_
    intro u hu w hw
    rcases hinv u hu w hw with h | h
    · exact Or.inl h
    · rcases List.mem_cons.mp h with h | h
      · exact Or.inl (h ▸ hmem)
      · exact Or.inr h
  | case3 kg v current rest hmem hsome kg1 v1 nids ih =>
    intro hsh hinv
    rw [propLoop]
    simp only [if_neg hmem, dif_pos hsome]
    have hsh' : shapeEq kg0 (setStatus kg current st) :=
      shapeEq_trans hsh (shapeEq_setStatus kg current st)
    refine ih hsh' ?_
    intro u hu w hw
    rcases List.mem_append.mp hu with hu | hu
    · rcases hinv u hu w hw with h | h
      · exact Or.inl (List.mem_append_left _ h)
      · rcases List.mem_cons.mp h with h | h
        · exact Or.inl (List.mem_append_right _ (by simp [h]))
        · exact Or.inr (List.mem_append_left _ h)
    · have hucur : u = current := List.mem_singleton.mp hu
      subst hucur
      by_cases hwv : w ∈ v ++ [u]
      · exact Or.inl hwv
      · refine Or.inr (List.mem_append_right _ ?_)
        have hwdep : w ∈ dependentIds (setStatus kg u st) u := by
          rw [← dependentIds_congr hsh' u]
          exact hw
        refine List.mem_filter.mpr ⟨hwdep, ?_⟩
        show decide (w ∉ v ++ [u]) = true
        simpa using hwv
  | case4 kg v current rest hmem hnone ih =>
    intro hsh hinv
    rw [propLoop]
    simp only [if_neg hmem, dif_neg hnone]
    refine ih hsh ?_
    intro u hu w hw
    rcases hinv u hu w hw with h | h
    · exact Or.inl h
    · rcases List.mem_cons.mp h with h | h
      · exfalso
        have hws : (kg0.facts.lookup w).isSome = true := edge_target_isSome hwf0 hw
        rw [isSome_congr hsh w] at hws
        rw [h] at hws
        exact hnone hws
      · exact Or.inr h

theorem propLoop_reach (st : FactValidity) (kg0 : KnowledgeGraph) (R : Nat → Prop)
    (hcl : ∀ x, R x → ∀ y ∈ dependentIds kg0 x, R y) (kg : KnowledgeGraph)
    (q v : List Nat) :
    shapeEq kg0 kg → (∀ x ∈ q, R x) → (∀ x ∈ v, R x) →
      ∀ x ∈ (propLoop st kg q v).2, R x := by
  induction kg, q, v using propLoop.induct st with
  | case1 kg v =>
    intro _ _ hv
    rw [propLoop]
    exact hv
  | case2 kg v current rest hmem ih =>
    intro hsh hq hv
    rw [propLoop]
    simp only [if_pos hmem]
    exact ih hsh (fun x hx => hq x (by simp [hx])) hv
  | case3 kg v current rest hmem hsome kg1 v1 nids ih =>
    intro hsh hq hv
    rw [propLoop]
    simp only [if_neg hmem, dif_pos hsome]
    have hcur : R current := hq current (by simp)
    have hsh' : shapeEq kg0 (setStatus kg current st) :=
      shapeEq_trans hsh (shapeEq_setStatus kg current st)
    refine ih hsh' ?_ ?_
    · intro x hx
      rcases List.mem_append.mp hx with hx | hx
      · exact hq x (by simp [hx])
      · have hxd : x ∈ dependentIds (setStatus kg current st) current := by
          have := List.mem_of_mem_filter hx
          simpa [dependentIds] using this
        rw [← dependentIds_congr hsh' current] at hxd
        exact hcl current hcur x hxd
    · intro x hx
      rcases List.mem_append.mp hx with hx | hx
      · exact hv x hx
      · simpa using List.mem_singleton.mp hx ▸ hcur
  | case4 kg v current rest hmem hnone ih =>
    intro hsh hq hv
    rw [propLoop]
    simp only [if_neg hmem, dif_neg hnone]
    exact ih hsh (fun x hx => hq x (by simp [hx])) hv

end Propagator

/-! ## Conflict-check lemmas -/

namespace KnowledgeGraph

theorem conflictsAgainst_sound (nf : Fact) (l : List Fact) :
    ∀ i ∈ conflictsAgainst nf l, ∃ e ∈ l, e.predicate = nf.predicate ∧
      e.object ≠ nf.object ∧ i = conflictIssue e nf := by
  induction l with
  | nil => intro i hi; simp [conflictsAgainst] at hi
  | cons x rest ih =>
    intro i hi
    rw [conflictsAgainst] at hi
    by_cases hp : x.predicate = nf.predicate
    · rw [if_pos hp] at hi
      by_cases ho : x.object ≠ nf.object
      · rw [if_pos ho] at hi
        rcases List.mem_cons.mp hi with h | h
        · exact ⟨x, by simp, hp, ho, h⟩
        · obtain ⟨e, he, h1, h2, h3⟩ := ih i h
          exact ⟨e, by simp [he], h1, h2, h3⟩
      · rw [if_neg ho] at hi
        obtain ⟨e, he, h1, h2, h3⟩ := ih i hi
        exact ⟨e, by simp [he], h1, h2, h3⟩
    · rw [if_neg hp] at hi
      obtain ⟨e, he, h1, h2, h3⟩ := ih i hi
      exact ⟨e, by simp [he], h1, h2, h3⟩

theorem filter_conflictsAgainst_eq_nil (p : ConsistencyIssue → Bool) (nf : Fact)
    (l : List Fact) (h : ∀ e ∈ l, p (conflictIssue e nf) = false) :
    (conflictsAgainst nf l).filter p = [] := by
  rw [List.filter_eq_nil_iff]
  intro i hi
  obtain ⟨e, he, _, _, h3⟩ := conflictsAgainst_sound nf l i hi
  rw [h3, h e he]
  simp

theorem conflictsAgainst_filter_singleton (nf e : Fact) (l : List Fact)
    (hnodup : (l.map Fact.id).Nodup) (he : e ∈ l)
    (hp : e.predicate = nf.predicate) (ho : e.object ≠ nf.object) :
    (conflictsAgainst nf l).filter
      (fun i => decide (i.conflicting_facts = [e.id, nf.id])) = [conflictIssue e nf] := by
  induction l with
  | nil => simp at he
  | cons x rest ih =>
    rw [conflictsAgainst]
    have hnd := hnodup
    rw [List.map_cons, List.nodup_cons] at hnd
    rcases List.mem_cons.mp he with hex | hex
    · subst hex
      rw [if_pos hp, if_pos ho, List.filter_cons]
      have hdec : (decide ((conflictIssue e nf).conflicting_facts = [e.id, nf.id])) = true := by
        simp [conflictIssue]
      rw [if_pos hdec]
      have hrest : (conflictsAgainst nf rest).filter
          (fun i => decide (i.conflicting_facts = [e.id, nf.id])) = [] := by
        apply filter_conflictsAgainst_eq_nil
        intro e' he'
        have hne : e'.id ≠ e.id := by
          intro hEq
          exact hnd.1 (hEq ▸ List.mem_map_of_mem Fact.id he')
        simp [conflictIssue, hne]
      rw [hrest]
    · have hxid : x.id ≠ e.id := by
        intro hEq
        exact hnd.1 (hEq ▸ List.mem_map_of_mem Fact.id hex)
      have ihr := ih hnd.2 hex
      by_cases hp' : x.predicate = nf.predicate
      · rw [if_pos hp']
        by_cases ho' : x.object ≠ nf.object
        · rw [if_pos ho', List.filter_cons]
          have hdec : (decide ((conflictIssue x nf).conflicting_facts = [e.id, nf.id]))
              = false := by
            simp [conflictIssue, hxid]
          rw [if_neg (by simp [hdec])]
          exact ihr
        · rw [if_neg ho']
          exact ihr
      · rw [if_neg hp']
        exact ihr

theorem check_conflicts_sound (kg : KnowledgeGraph) (nfs : List Fact) :
    (∀ nf ∈ nfs, kg.get_facts_by_subject nf.subject
      = (storedFacts kg).filter (fun e => decide (e.subject = nf.subject))) →
    ∀ i ∈ check_conflicts kg nfs, ∃ nf ∈ nfs, ∃ e ∈ storedFacts kg,
      e.subject = nf.subject ∧ e.predicate = nf.predicate ∧ e.object ≠ nf.object ∧
      i = conflictIssue e nf := by
  induction nfs with
  | nil => intro _ i hi; simp [check_conflicts] at hi
  | cons nf rest ih =>
    intro hwf i hi
    rw [check_conflicts] at hi
    rcases List.mem_append.mp hi with h | h
    · obtain ⟨e, he, h1, h2, h3⟩ := conflictsAgainst_sound nf _ i h
      rw [hwf nf (by simp)] at he
      refine ⟨nf, by simp, e, List.mem_of_mem_filter he, ?_, h1, h2, h3⟩
      have := List.of_mem_filter he
      simpa using this
    · obtain ⟨nf', hnf', e, he, hs, h1, h2, h3⟩ :=
        ih (fun nf' h' => hwf nf' (by simp [h'])) i h
      exact ⟨nf', by simp [hnf'], e, he, hs, h1, h2, h3⟩

theorem check_conflicts_filter_eq_nil (kg : KnowledgeGraph) (nfs : List Fact)
    (eid nid : Nat) (h : ∀ nf ∈ nfs, nf.id ≠ nid) :
    (check_conflicts kg nfs).filter
      (fun i => decide (i.conflicting_facts = [eid, nid])) = [] := by
  induction nfs with
  | nil => simp [check_conflicts]
  | cons nf rest ih =>
    rw [check_conflicts, List.filter_append]
    have h1 : (conflictsAgainst nf (kg.get_facts_by_subject nf.subject)).filter
        (fun i => decide (i.conflicting_facts = [eid, nid])) = [] := by
      apply filter_conflictsAgainst_eq_nil
      intro e' _
      simp [conflictIssue, h nf (by simp)]
    rw [h1, ih (fun nf' h' => h nf' (by simp [h']))]
    rfl

theorem check_conflicts_exact (kg : KnowledgeGraph) (nfs : List Fact) :
    (∀ nf ∈ nfs, kg.get_facts_by_subject nf.subject
      = (storedFacts kg).filter (fun e => decide (e.subject = nf.subject))) →
    (((storedFacts kg).map Fact.id) ++ nfs.map Fact.id).Nodup →
    ∀ nf ∈ nfs, ∀ e ∈ storedFacts kg, e.subject = nf.subject → e.predicate = nf.predicate →
      e.object ≠ nf.object →
      (check_conflicts kg nfs).filter
        (fun i => decide (i.conflicting_facts = [e.id, nf.id])) = [conflictIssue e nf] := by
  induction nfs with
  | nil => intro _ _ nf hnf; simp at hnf
  | cons nf0 rest ih =>
    intro hwf hids nf hnf e he hs hp ho
    have hstoredND : ((storedFacts kg).map Fact.id).Nodup := List.Nodup.of_append_left hids
    have hnewND : ((nf0 :: rest).map Fact.id).Nodup := List.Nodup.of_append_right hids
    rw [List.map_cons, List.nodup_cons] at hnewND
    rw [check_conflicts, List.filter_append]
    rcases List.mem_cons.mp hnf with h1 | h1
    · have hseg1 : (conflictsAgainst nf0 (kg.get_facts_by_subject nf0.subject)).filter
          (fun i => decide (i.conflicting_facts = [e.id, nf.id])) = [conflictIssue e nf] := by
        rw [← h1, hwf nf (by simp [h1])]
        apply conflictsAgainst_filter_singleton
        · exact List.Sublist.nodup
            (List.Sublist.map Fact.id (List.filter_sublist (storedFacts kg))) hstoredND
        · exact List.mem_filter.mpr ⟨he, by simp [hs]⟩
        · exact hp
        · exact ho
      have hseg2 : (check_conflicts kg rest).filter
          (fun i => decide (i.conflicting_facts = [e.id, nf.id])) = [] := by
        apply check_conflicts_filter_eq_nil
        intro nf'' h'' hEq
        rw [← h1] at hnewND
        exact hnewND.1 (hEq ▸ List.mem_map_of_mem Fact.id h'')
      rw [hseg1, hseg2]
      rfl
    · have hneid : nf0.id ≠ nf.id := by
        intro hEq
        exact hnewND.1 (hEq ▸ List.mem_map_of_mem Fact.id h1)
      have hseg1 : (conflictsAgainst nf0 (kg.get_facts_by_subject nf0.subject)).filter
          (fun i => decide (i.conflicting_facts = [e.id, nf.id])) = [] := by
        apply filter_conflictsAgainst_eq_nil
        intro e' _
        simp [conflictIssue, hneid]
      have hids' : (((storedFacts kg).map Fact.id) ++ rest.map Fact.id).Nodup := by
        refine List.Sublist.nodup ?_ hids
        exact List.Sublist.append_left (by
          rw [List.map_cons]
          exact List.sublist_cons_self nf0.id (rest.map Fact.id)) _
      rw [hseg1, ih (fun nf' h' => hwf nf' (by simp [h'])) hids' nf h1 e he hs hp ho]
      rfl

end KnowledgeGraph

/-! ## Constraint-engine lemmas -/

namespace ConstraintEngine

theorem mem_of_mem_firstKeys {α : Type} [BEq α] [LawfulBEq α] {seen l : List α} {x : α}
    (h : x ∈ firstKeys seen l) : x ∈ l := by
  induction l generalizing seen with
  | nil => simp [firstKeys] at h
  | cons y ys ih =>
    rw [firstKeys] at h
    by_cases hy : seen.contains y
    · rw [if_pos hy] at h
      exact List.mem_cons.mpr (Or.inr (ih h))
    · rw [if_neg hy] at h
      rcases List.mem_cons.mp h with h | h
      · simp [h]
      · exact List.mem_cons.mpr (Or.inr (ih h))

theorem mem_firstKeys_of_mem {α : Type} [BEq α] [LawfulBEq α] {seen l : List α} {x : α}
    (hx : x ∈ l) (hs : ¬ seen.contains x = true) : x ∈ firstKeys seen l := by
  induction l generalizing seen with
  | nil => simp at hx
  | cons y ys ih =>
    rw [firstKeys]
    rcases List.mem_cons.mp hx with h | h
    · subst h
      rw [if_neg hs]
      simp
    · by_cases hy : seen.contains y
      · rw [if_pos hy]
        exact ih h hs
      · rw [if_neg hy]
        by_cases hxy : x = y
        · simp [hxy]
        · refine List.mem_cons.mpr (Or.inr (ih h ?_))
          simp only [List.contains_cons, Bool.or_eq_true, beq_iff_eq]
          push_neg
          exact ⟨hxy, by simpa using hs⟩

theorem firstKeys_eq_nil {α : Type} [BEq α] [LawfulBEq α] {seen l : List α}
    (h : ∀ y ∈ l, seen.contains y = true) : firstKeys seen l = [] := by
  induction l with
  | nil => rfl
  | cons y ys ih =>
    rw [firstKeys, if_pos (h y (by simp))]
    exact ih (fun z hz => h z (by simp [hz]))

theorem length_firstKeys_le_one {α : Type} [BEq α] [LawfulBEq α] {seen l : List α}
    (h : ∀ a ∈ l, ∀ b ∈ l, a = b) : (firstKeys seen l).length ≤ 1 := by
  cases l with
  | nil => simp [firstKeys]
  | cons y ys =>
    rw [firstKeys]
    by_cases hy : seen.contains y
    · rw [if_pos hy]
      have : firstKeys seen ys = [] ∨ (firstKeys seen ys).length ≤ 1 := by
        right
        exact length_firstKeys_le_one (fun a ha b hb =>
          h a (by simp [ha]) b (by simp [hb]))
      exact length_firstKeys_le_one (fun a ha b hb => h a (by simp [ha]) b (by simp [hb]))
    · rw [if_neg hy]
      have hz : firstKeys (y :: seen) ys = [] := by
        apply firstKeys_eq_nil
        intro z hz
        have : z = y := h z (by simp [hz]) y (by simp)
        simp [this]
      rw [hz]
      simp

theorem one_lt_length_of_two_mem {α : Type} {m : List α} {a b : α}
    (ha : a ∈ m) (hb : b ∈ m) (hne : a ≠ b) : 1 < m.length := by
  cases m with
  | nil => simp at ha
  | cons x xs =>
    cases xs with
    | nil =>
      rcases List.mem_singleton.mp ha with rfl
      rcases List.mem_singleton.mp hb with rfl
      exact absurd rfl hne
    | cons y ys => simp [Nat.lt_of_lt_of_le]

theorem exists_ne_of_one_lt_firstKeys {α : Type} [BEq α] [LawfulBEq α] {l : List α}
    (h : 1 < (firstKeys ([] : List α) l).length) : ∃ a ∈ l, ∃ b ∈ l, a ≠ b := by
  by_contra hc
  push_neg at hc
  have : (firstKeys ([] : List α) l).length ≤ 1 := length_firstKeys_le_one hc
  omega

theorem checkConstraintLoop_eq (c : Constraint) (s a op e : String) (l : List Fact) :
    checkConstraintLoop c s a op e l
      = (l.find? (fun f => f.predicate == a && !(evalOp (pyStrip f.object) op e))).map
          (fun f => violationIssue c s a op e (pyStrip f.object)) := by
  induction l with
  | nil => rfl
  | cons f fs ih =>
    rw [checkConstraintLoop, List.find?_cons]
    by_cases hp : (f.predicate == a) = true
    · by_cases hv : evalOp (pyStrip f.object) op e = true
      · simp only [hp, hv, if_true, Bool.not_true, Bool.and_false]
        exact ih
      · have hv' : evalOp (pyStrip f.object) op e = false := by
          simpa using hv
        simp only [hp, hv', if_true, if_false, Bool.not_false, Bool.and_true]
        rfl
    · have hp' : (f.predicate == a) = false := by simpa using hp
      simp only [hp', if_false, Bool.false_and]
      exact ih

theorem check_constraint_confidence (c : Constraint) (m : String → List Fact)
    (i : ConsistencyIssue) (h : check_constraint c m = some i) :
    i.confidence = qLit 17 20 := by
  rcases hp : parseRule c.rule with _ | ⟨s, a, op, v⟩
  · simp [check_constraint, hp] at h
  · simp only [check_constraint, hp, checkConstraintLoop_eq] at h
    obtain ⟨f, _, hfi⟩ := Option.map_eq_some'.mp h
    rw [← hfi]
    rfl

theorem check_implicit_sound (facts : List Fact) :
    ∀ i ∈ check_implicit_constraints facts, ∃ s p,
      i = implicitIssue s p (predGroup facts s p) ∧
      ∃ f ∈ predGroup facts s p, ∃ g ∈ predGroup facts s p, f.object ≠ g.object := by
  intro i hi
  rw [check_implicit_constraints] at hi
  obtain ⟨inner, hinner, hiin⟩ := List.mem_flatten.mp hi
  obtain ⟨s, _, hseq⟩ := List.mem_map.mp hinner
  subst hseq
  obtain ⟨p, _, hpeq⟩ := List.mem_filterMap.mp hiin
  by_cases hcond : ((predGroup facts s p).length > 1
      && (firstKeys [] ((predGroup facts s p).map Fact.object)).length > 1) = true
  · rw [if_pos hcond] at hpeq
    have hieq : i = implicitIssue s p (predGroup facts s p) := (Option.some.inj hpeq).symm
    refine ⟨s, p, hieq, ?_⟩
    have hlen : 1 < (firstKeys ([] : List String)
        ((predGroup facts s p).map Fact.object)).length := by
      have := (Bool.and_eq_true _ _).mp hcond
      simpa using this.2
    obtain ⟨x, hx, y, hy, hxy⟩ := exists_ne_of_one_lt_firstKeys hlen
    obtain ⟨f, hf, hfx⟩ := List.mem_map.mp hx
    obtain ⟨g, hg, hgy⟩ := List.mem_map.mp hy
    exact ⟨f, hf, g, hg, by rw [hfx, hgy]; exact hxy⟩
  · rw [if_neg hcond] at hpeq
    simp at hpeq

theorem implicit_mem_of_group (facts : List Fact) (s p : String) (f g : Fact)
    (hf : f ∈ facts) (hg : g ∈ facts) (hfs : f.subject = s) (hfp : f.predicate = p)
    (hgs : g.subject = s) (hgp : g.predicate = p) (hne : f.object ≠ g.object) :
    implicitIssue s p (predGroup facts s p) ∈ check_implicit_constraints facts := by
  have hfgrp : f ∈ predGroup facts s p := by
    rw [predGroup, List.mem_filter]
    exact ⟨hf, by simp [hfs, hfp]⟩
  have hggrp : g ∈ predGroup facts s p := by
    rw [predGroup, List.mem_filter]
    exact ⟨hg, by simp [hgs, hgp]⟩
  have hfg : f ≠ g := fun hEq => hne (hEq ▸ rfl)
  have hcond : ((predGroup facts s p).length > 1
      && (firstKeys [] ((predGroup facts s p).map Fact.object)).length > 1) = true := by
    rw [Bool.and_eq_true]
    constructor
    · simpa using one_lt_length_of_two_mem hfgrp hggrp hfg
    · have hx : f.object ∈ firstKeys ([] : List String)
          ((predGroup facts s p).map Fact.object) :=
        mem_firstKeys_of_mem (List.mem_map_of_mem Fact.object hfgrp) (by simp)
      have hy : g.object ∈ firstKeys ([] : List String)
          ((predGroup facts s p).map Fact.object) :=
        mem_firstKeys_of_mem (List.mem_map_of_mem Fact.object hggrp) (by simp)
      simpa using one_lt_length_of_two_mem hx hy hne
  have hsmem : s ∈ firstKeys ([] : List String) (facts.map Fact.subject) := by
    refine mem_firstKeys_of_mem ?_ (by simp)
    rw [← hfs]
    exact List.mem_map_of_mem Fact.subject hf
  have hpmem : p ∈ firstKeys ([] : List String)
      ((facts.filter (fun f => f.subject == s)).map Fact.predicate) := by
    refine mem_firstKeys_of_mem ?_ (by simp)
    rw [← hfp]
    refine List.mem_map_of_mem Fact.predicate ?_
    rw [List.mem_filter]
    exact ⟨hf, by simp [hfs]⟩
  rw [check_implicit_constraints]
  apply List.mem_flatten.mpr
  refine ⟨(firstKeys [] ((facts.filter (fun f => f.subject == s)).map Fact.predicate)).filterMap
      (fun p => if (predGroup facts s p).length > 1
          && (firstKeys [] ((predGroup facts s p).map Fact.object)).length > 1
        then some (implicitIssue s p (predGroup facts s p))
        else none),
    List.mem_map_of_mem _ hsmem, ?_⟩
  apply List.mem_filterMap.mpr
  refine ⟨p, hpmem, ?_⟩
  rw [if_pos hcond]

end ConstraintEngine

/-! ## Concrete stores used by claim witnesses and counterexamples -/

/-- Fact 1, subject "A", no dependencies. -/
def factA : Fact := { id := 1, subject := "A", predicate := "is", object := "x" }

/-- Fact 2, subject "B", depending on fact 1. -/
def factB : Fact :=
  { id := 2, subject := "B", predicate := "is", object := "y", dependencies := [1] }

/-- Fact 3, subject "C", depending on fact 2. -/
def factC : Fact :=
  { id := 3, subject := "C", predicate := "is", object := "z", dependencies := [2] }

/-- A two-fact store in which fact 2 depends on fact 1 and fact 1 depends back
on fact 2: the reverse-dependency graph is the cycle 1 ↔ 2. -/
def kgCycle : KnowledgeGraph :=
  { facts := [(1, { factA with dependencies := [2] }), (2, factB)],
    fact_index := [("A", [1]), ("B", [2])],
    dependent_index := [(1, [2]), (2, [1])] }

/-- The acyclic chain store A→B→C: fact 2 depends on fact 1, fact 3 on 2. -/
def kgChain : KnowledgeGraph :=
  { facts := [(1, factA), (2, factB), (3, factC)],
    fact_index := [("A", [1]), ("B", [2]), ("C", [3])],
    dependent_index := [(1, [2]), (2, [3])] }

/-- The chain A→B→C closed into a cycle: fact 1 additionally depends on
fact 3 (the claim's example of a dependency cycle). -/
def kgCycle3 : KnowledgeGraph :=
  { facts := [(1, { factA with dependencies := [3] }), (2, factB), (3, factC)],
    fact_index := [("A", [1]), ("B", [2]), ("C", [3])],
    dependent_index := [(1, [2]), (2, [3]), (3, [1])] }

/-- Stored fact: (Alice, age, 25). -/
def factAlice25 : Fact := { id := 10, subject := "Alice", predicate := "age", object := "25" }

/-- Incoming fact: (Alice, age, 30). -/
def factAlice30 : Fact := { id := 20, subject := "Alice", predicate := "age", object := "30" }

/-- A store holding only (Alice, age, 25), with its subject index. -/
def kgAlice : KnowledgeGraph :=
  { facts := [(10, factAlice25)], fact_index := [("Alice", [10])] }

/-- A second incoming fact: (Alice, age, 31). -/
def factAlice31 : Fact := { id := 21, subject := "Alice", predicate := "age", object := "31" }

/-- A well-formed hard constraint: Alice's age must equal 25. -/
def cAgeIs25 : Constraint :=
  { id := 50, type := ConstraintType.FACTUAL, description := "Alice is 25",
    rule := "entity.Alice.age == 25" }

/-- A malformed constraint rule (does not match the grammar). -/
def cBadRule : Constraint :=
  { id := 51, type := ConstraintType.FACTUAL, description := "free-text rule",
    rule := "Alice is always happy" }

/-- The entity Bob. -/
def bobEntity : Entity := { id := 30, name := "Bob", type := EntityType.CHARACTER }

/-- Bob's recorded not-alive state at narrative position 2. -/
def bobDeadState : EntityTracker.EntityState :=
  { entity_id := 30, position := 2, alive := false }

/-- Bob's tracked profile. -/
def bobProfile : EntityTracker.EntityProfile :=
  { entity := bobEntity, states := [bobDeadState] }

/-- A tracker that has recorded Bob as not alive at narrative position 2. -/
def bobTracker : EntityTracker.Tracker :=
  { profiles := [(30, bobProfile)], name_to_id := [("bob", 30)] }

/-- Narrative text whose sentence at index 5 has Bob performing the action
verb "ran"; the only earlier Bob sentence is at index 2 (not after his
death position 2). -/
def bobText : String :=
  "Intro. Setup. Bob died here. Aftermath. Mourning. Bob ran across the field"

/-- Narrative text where Bob acts only at sentence index 1, which is not
strictly after his death position 2. -/
def bobTextEarly : String := "Start. Bob ran home. Rest"

/-- A behavioral warning issue, used to populate concrete issue lists for the
scoring route. -/
def issueW : ConsistencyIssue :=
  { type := ConstraintType.BEHAVIORAL, level := ConsistencyLevel.WARNING,
    description := "w" }

/-- Six issues: enough for `1.0 - 6 * 0.1` to land below the double `0.4`. -/
def sixIssues : List ConsistencyIssue :=
  [issueW, issueW, issueW, issueW, issueW, issueW]

/-- Three behavioral issues, for the per-dimension score `1.0 - 3 * 0.15`. -/
def threeIssues : List ConsistencyIssue := [issueW, issueW, issueW]

/-! ## Claim theorems -/

open Propagator KnowledgeGraph

/-- C1, counterexample: the claim says `propagate_change(A)` never sets A's own
status to dirty, for every graph shape including a dependency cycle leading
back to A. In the two-fact cycle store, propagating a change of fact 1
enqueues fact 2, whose dependent is fact 1 again, so fact 1 itself ends up
marked `DIRTY` and appears in the returned dirty set. -/
theorem c1_counterexample_cycle_marks_root_dirty :
    1 ∈ (propagate_change kgCycle 1).2 ∧
    ((propagate_change kgCycle 1).1.get_fact 1).map Fact.validity_status
      = some FactValidity.DIRTY := by
  constructor <;>
    simp [propagate_change, propLoop, kgCycle, get_dependents, setStatus, factA, factB,
      get_fact, List.lookup]

/-- C1, amended: every id marked dirty by `propagate_change(A)` is a strict
(one-or-more-edge) transitive dependent of A; consequently A itself is marked
only when a dependency cycle leads back to A, and when no such cycle exists A
is not in the dirty set and A's stored fact is left untouched. -/
theorem c1_propagate_change_marks_only_strict_dependents (kg : KnowledgeGraph) (a : Nat) :
    (∀ x ∈ (propagate_change kg a).2, Relation.TransGen (depEdge kg) a x) ∧
    (¬ Relation.TransGen (depEdge kg) a a →
      a ∉ (propagate_change kg a).2 ∧
      (propagate_change kg a).1.get_fact a = kg.get_fact a) := by
  have hreach : ∀ x ∈ (propagate_change kg a).2, Relation.TransGen (depEdge kg) a x := by
    intro x hx
    refine propLoop_reach FactValidity.DIRTY kg (Relation.TransGen (depEdge kg) a)
      (fun u hu y hy => hu.tail hy) kg _ _ (shapeEq_refl kg) ?_ (by simp) x hx
    intro y hy
    exact Relation.TransGen.single hy
  refine ⟨hreach, fun hnc => ?_⟩
  have hnot : a ∉ (propagate_change kg a).2 := fun ha => hnc (hreach a ha)
  exact ⟨hnot, propLoop_lookup_of_not_mem FactValidity.DIRTY kg _ [] a hnot⟩

/-- C1 witness: in the acyclic chain store no cycle leads back to fact 1, so
the amended theorem applies and fact 1 is neither in the dirty set nor
modified. -/
theorem c1_witness_acyclic_root_untouched :
    1 ∉ (propagate_change kgChain 1).2 ∧
    (propagate_change kgChain 1).1.get_fact 1 = kgChain.get_fact 1 := by
  have hnoedge : ∀ u : Nat, ¬ depEdge kgChain u 1 := by
    intro u hu
    have hu' : (1 : Nat) ∈ dependentIds kgChain u := hu
    by_cases h1 : u = 1
    · subst h1
      revert hu'
      decide
    · by_cases h2 : u = 2
      · subst h2
        revert hu'
        decide
      · have hz : dependentIds kgChain u = [] := by
          simp [dependentIds, get_dependents, kgChain, List.lookup_cons,
            beq_false_of_ne h1, beq_false_of_ne h2]
        rw [hz] at hu'
        exact absurd hu' (List.not_mem_nil 1)
  have hnc : ¬ Relation.TransGen (depEdge kgChain) 1 1 := by
    intro h
    cases h with
    | single h1 => exact hnoedge _ h1
    | tail _ h1 => exact hnoedge _ h1
  exact (c1_propagate_change_marks_only_strict_dependents kgChain 1).2 hnc

/-- C2: in any store containing the dependency chain A→B→C — facts `a`, `b`,
`c` are present, the dependents of `a` resolve exactly to `b`, those of `b`
to `c`, and `c` has none — `invalidate_fact a` marks all three facts
`INVALID` and returns exactly the three ids, each once. -/
theorem c2_invalidate_chain (kg : KnowledgeGraph) (a b c : Nat) (fa fb fc : Fact)
    (hab : a ≠ b) (hac : a ≠ c) (hbc : b ≠ c)
    (ha : kg.facts.lookup a = some fa) (hb : kg.facts.lookup b = some fb)
    (hc : kg.facts.lookup c = some fc)
    (hda : dependentIds kg a = [b]) (hdb : dependentIds kg b = [c])
    (hdc : dependentIds kg c = []) :
    (invalidate_fact kg a).2 = [a, b, c] ∧
    ((invalidate_fact kg a).1.get_fact a).map Fact.validity_status
      = some FactValidity.INVALID ∧
    ((invalidate_fact kg a).1.get_fact b).map Fact.validity_status
      = some FactValidity.INVALID ∧
    ((invalidate_fact kg a).1.get_fact c).map Fact.validity_status
      = some FactValidity.INVALID := by
  have hba : b ≠ a := Ne.symm hab
  have hca : c ≠ a := Ne.symm hac
  have hcb : c ≠ b := Ne.symm hbc
  have hsh1 : shapeEq kg (setStatus kg a FactValidity.INVALID) :=
    shapeEq_setStatus kg a FactValidity.INVALID
  have hsh2 : shapeEq kg (setStatus (setStatus kg a FactValidity.INVALID) b
      FactValidity.INVALID) :=
    shapeEq_trans hsh1 (shapeEq_setStatus _ b FactValidity.INVALID)
  have hsh3 : shapeEq kg (setStatus (setStatus (setStatus kg a FactValidity.INVALID) b
      FactValidity.INVALID) c FactValidity.INVALID) :=
    shapeEq_trans hsh2 (shapeEq_setStatus _ c FactValidity.INVALID)
  have hsa : (kg.facts.lookup a).isSome := by rw [ha]; rfl
  have hda1 : dependentIds (setStatus kg a FactValidity.INVALID) a = [b] := by
    rw [← dependentIds_congr hsh1 a]; exact hda
  have hb1 : (setStatus kg a FactValidity.INVALID).facts.lookup b = some fb := by
    have h := lookup_setOne kg.facts b a FactValidity.INVALID
    rw [if_neg hba] at h
    exact h.trans hb
  have hsb1 : ((setStatus kg a FactValidity.INVALID).facts.lookup b).isSome := by
    rw [hb1]; rfl
  have hdb2 : dependentIds (setStatus (setStatus kg a FactValidity.INVALID) b
      FactValidity.INVALID) b = [c] := by
    rw [← dependentIds_congr hsh2 b]; exact hdb
  have hc1 : (setStatus kg a FactValidity.INVALID).facts.lookup c = some fc := by
    have h := lookup_setOne kg.facts c a FactValidity.INVALID
    rw [if_neg hca] at h
    exact h.trans hc
  have hc2 : (setStatus (setStatus kg a FactValidity.INVALID) b
      FactValidity.INVALID).facts.lookup c = some fc := by
    have h := lookup_setOne (setStatus kg a FactValidity.INVALID).facts c b
      FactValidity.INVALID
    rw [if_neg hcb] at h
    exact h.trans hc1
  have hsc2 : ((setStatus (setStatus kg a FactValidity.INVALID) b
      FactValidity.INVALID).facts.lookup c).isSome := by
    rw [hc2]; rfl
  have hdc3 : dependentIds (setStatus (setStatus (setStatus kg a FactValidity.INVALID) b
      FactValidity.INVALID) c FactValidity.INVALID) c = [] := by
    rw [← dependentIds_congr hsh3 c]; exact hdc
  have key : invalidate_fact kg a
      = (setStatus (setStatus (setStatus kg a FactValidity.INVALID) b
          FactValidity.INVALID) c FactValidity.INVALID, [a, b, c]) := by
    show propLoop FactValidity.INVALID kg [a] [] = _
    rw [propLoop_step_mark FactValidity.INVALID kg a [] [] (by simp) hsa]
    rw [hda1]
    rw [show (([] : List Nat)
        ++ ([b].filter (fun depId => decide (depId ∉ ([] : List Nat) ++ [a])))) = [b] from by
      simp [hba]]
    rw [show (([] : List Nat) ++ [a]) = [a] from by simp]
    rw [propLoop_step_mark FactValidity.INVALID _ b [] [a] (by simp [hba]) hsb1]
    rw [hdb2]
    rw [show (([] : List Nat)
        ++ ([c].filter (fun depId => decide (depId ∉ [a] ++ [b])))) = [c] from by
      simp [hca, hcb]]
    rw [show ([a] ++ [b] : List Nat) = [a, b] from by simp]
    rw [propLoop_step_mark FactValidity.INVALID _ c [] [a, b] (by simp [hca, hcb]) hsc2]
    rw [hdc3]
    rw [show (([] : List Nat)
        ++ ([].filter (fun depId => decide (depId ∉ [a, b] ++ [c])))) = [] from by simp]
    rw [show ([a, b] ++ [c] : List Nat) = [a, b, c] from by simp]
    exact propLoop_nil FactValidity.INVALID _ [a, b, c]
  rw [key]
  refine ⟨rfl, ?_, ?_, ?_⟩
  · have h3 := get_fact_setStatus (setStatus (setStatus kg a FactValidity.INVALID) b
      FactValidity.INVALID) c FactValidity.INVALID a
    rw [if_neg hac] at h3
    have h2 := get_fact_setStatus (setStatus kg a FactValidity.INVALID) b
      FactValidity.INVALID a
    rw [if_neg hab] at h2
    have h1 := get_fact_setStatus kg a FactValidity.INVALID a
    rw [if_pos rfl] at h1
    show ((setStatus (setStatus (setStatus kg a FactValidity.INVALID) b
      FactValidity.INVALID) c FactValidity.INVALID).get_fact a).map Fact.validity_status
      = some FactValidity.INVALID
    rw [h3, h2, h1, show get_fact kg a = some fa from ha]
    rfl
  · have h3 := get_fact_setStatus (setStatus (setStatus kg a FactValidity.INVALID) b
      FactValidity.INVALID) c FactValidity.INVALID b
    rw [if_neg hbc] at h3
    have h2 := get_fact_setStatus (setStatus kg a FactValidity.INVALID) b
      FactValidity.INVALID b
    rw [if_pos rfl] at h2
    show ((setStatus (setStatus (setStatus kg a FactValidity.INVALID) b
      FactValidity.INVALID) c FactValidity.INVALID).get_fact b).map Fact.validity_status
      = some FactValidity.INVALID
    rw [h3, h2, show get_fact (setStatus kg a FactValidity.INVALID) b = some fb from hb1]
    rfl
  · have h1 := get_fact_setStatus (setStatus (setStatus kg a FactValidity.INVALID) b
      FactValidity.INVALID) c FactValidity.INVALID c
    rw [if_pos rfl] at h1
    show ((setStatus (setStatus (setStatus kg a FactValidity.INVALID) b
      FactValidity.INVALID) c FactValidity.INVALID).get_fact c).map Fact.validity_status
      = some FactValidity.INVALID
    rw [h1, show get_fact (setStatus (setStatus kg a FactValidity.INVALID) b
      FactValidity.INVALID) c = some fc from hc2]
    rfl

/-- C2 witness: the chain store instantiates the chain-invalidation theorem at
facts 1→2→3. -/
theorem c2_witness_chain_store :
    (invalidate_fact kgChain 1).2 = [1, 2, 3] ∧
    ((invalidate_fact kgChain 1).1.get_fact 1).map Fact.validity_status
      = some FactValidity.INVALID ∧
    ((invalidate_fact kgChain 1).1.get_fact 2).map Fact.validity_status
      = some FactValidity.INVALID ∧
    ((invalidate_fact kgChain 1).1.get_fact 3).map Fact.validity_status
      = some FactValidity.INVALID :=
  c2_invalidate_chain kgChain 1 2 3 factA factB factC (by decide) (by decide) (by decide)
    (by rfl) (by rfl) (by rfl) (by rfl) (by rfl) (by rfl)

/-- C3: for every store and seed (cycles allowed), `invalidate_fact` is a
total function (termination), its returned visited list has no duplicates,
running it a second time on the resulting store returns the same id list,
and — whenever the store keys its facts by their own ids and the seed
resolves — every fact reachable over reverse-dependency edges is visited:
each reachable fact is visited exactly once. -/
theorem c3_invalidate_terminates_nodup_idempotent (kg : KnowledgeGraph) (seed : Nat) :
    ((invalidate_fact kg seed).2).Nodup ∧
    (invalidate_fact (invalidate_fact kg seed).1 seed).2 = (invalidate_fact kg seed).2 ∧
    ((∀ p ∈ kg.facts, (Prod.snd p).id = p.1) → (kg.facts.lookup seed).isSome →
      seed ∈ (invalidate_fact kg seed).2 ∧
      ∀ x, Relation.TransGen (depEdge kg) seed x → x ∈ (invalidate_fact kg seed).2) := by
  refine ⟨?_, ?_, ?_⟩
  · exact propLoop_nodup FactValidity.INVALID kg [seed] [] List.nodup_nil
  · exact (propLoop_snd_congr FactValidity.INVALID FactValidity.INVALID kg [seed] []
      (propLoop FactValidity.INVALID kg [seed] []).1
      (propLoop_shape FactValidity.INVALID kg [seed] [])).symm
  · intro hwf hseed
    have hseedmem : seed ∈ (invalidate_fact kg seed).2 :=
      propLoop_queue_mem FactValidity.INVALID kg [seed] [] seed (by simp) hseed
    have hclosed := propLoop_closed FactValidity.INVALID kg hwf kg [seed] []
      (shapeEq_refl kg) (by simp)
    refine ⟨hseedmem, ?_⟩
    intro x hx
    induction hx with
    | single h => exact hclosed seed hseedmem _ h
    | tail _ hlast ih => exact hclosed _ ih _ hlast

/-- C3 witness: on the cyclic chain (1→2→3 with 3's dependent looping back
to 1), invalidating fact 1 visits 1 and the transitively reachable fact 3. -/
theorem c3_witness_cyclic_chain :
    1 ∈ (invalidate_fact kgCycle3 1).2 ∧ 3 ∈ (invalidate_fact kgCycle3 1).2 := by
  have h := (c3_invalidate_terminates_nodup_idempotent kgCycle3 1).2.2
    (by decide) (by decide)
  exact ⟨h.1, h.2 3 (Relation.TransGen.tail
    (Relation.TransGen.single (show depEdge kgCycle3 1 2 by decide))
    (show depEdge kgCycle3 2 3 by decide))⟩

/-- C4: on a store whose subject index is consistent with the stored facts
and whose fact ids (stored and incoming) are pairwise distinct,
`check_conflicts` returns (i) only issues built from a (new, stored) pair
sharing subject and predicate with differing objects — so equal objects or
differing predicates yield nothing — and (ii) for every such pair, exactly one
issue carrying exactly the two ids, namely `conflictIssue` with type factual,
level inconsistent, confidence 0.9; several conflicts for one new fact each
yield their own issue (no early exit). -/
theorem c4_check_conflicts_pairwise (kg : KnowledgeGraph) (nfs : List Fact)
    (hwf : ∀ nf ∈ nfs, kg.get_facts_by_subject nf.subject
      = (storedFacts kg).filter (fun e => decide (e.subject = nf.subject)))
    (hids : (((storedFacts kg).map Fact.id) ++ nfs.map Fact.id).Nodup) :
    (∀ i ∈ check_conflicts kg nfs, ∃ nf ∈ nfs, ∃ e ∈ storedFacts kg,
      e.subject = nf.subject ∧ e.predicate = nf.predicate ∧ e.object ≠ nf.object ∧
      i = conflictIssue e nf) ∧
    (∀ nf ∈ nfs, ∀ e ∈ storedFacts kg, e.subject = nf.subject → e.predicate = nf.predicate →
      e.object ≠ nf.object →
      (check_conflicts kg nfs).filter
        (fun i => decide (i.conflicting_facts = [e.id, nf.id])) = [conflictIssue e nf]) :=
  ⟨check_conflicts_sound kg nfs hwf, check_conflicts_exact kg nfs hwf hids⟩

/-- C4 witness: the Alice store against the batch [(Alice, age, 30)]: the
single conflicting pair yields exactly the one issue listing both fact ids. -/
theorem c4_witness_alice_single_conflict :
    (check_conflicts kgAlice [factAlice30]).filter
      (fun i => decide (i.conflicting_facts = [factAlice25.id, factAlice30.id]))
      = [conflictIssue factAlice25 factAlice30] :=
  (c4_check_conflicts_pairwise kgAlice [factAlice30] (by decide) (by decide)).2
    factAlice30 (by decide) factAlice25 (by decide) (by decide) (by decide) (by decide)

/-- C5: for every batch and every registry (the implicit pass reads no
registered constraint): (i) any two batch facts sharing (subject, predicate)
with differing objects put into `validate`'s output an issue of type factual,
level inconsistent, confidence 0.95, whose `conflicting_facts` are exactly the
ids of the whole (subject, predicate) group in batch order; (ii) conversely
every confidence-0.95 issue in the output is such a group issue for a group
containing two differing objects — so a group whose objects are all identical
never yields one. -/
theorem c5_implicit_contradiction_pass (constraints : List Constraint) (facts : List Fact) :
    (∀ s p f g, f ∈ facts → g ∈ facts → f.subject = s → f.predicate = p →
      g.subject = s → g.predicate = p → f.object ≠ g.object →
      ∃ i ∈ ConstraintEngine.validate constraints facts,
        i.type = ConstraintType.FACTUAL ∧ i.level = ConsistencyLevel.INCONSISTENT ∧
        i.confidence = (19 : ℚ)/20 ∧
        i.conflicting_facts = (ConstraintEngine.predGroup facts s p).map Fact.id) ∧
    (∀ i ∈ ConstraintEngine.validate constraints facts, i.confidence = (19 : ℚ)/20 →
      ∃ s p, i = ConstraintEngine.implicitIssue s p (ConstraintEngine.predGroup facts s p) ∧
        ∃ f ∈ ConstraintEngine.predGroup facts s p,
          ∃ g ∈ ConstraintEngine.predGroup facts s p, f.object ≠ g.object) := by
  have hq19 : qLit 19 20 = (19 : ℚ)/20 := by
    rw [qLit_eq_div]
    norm_num
  have hne1720 : qLit 17 20 ≠ (19 : ℚ)/20 := by
    rw [qLit_eq_div]
    norm_num
  constructor
  · intro s p f g hf hg hfs hfp hgs hgp hne2
    refine ⟨ConstraintEngine.implicitIssue s p (ConstraintEngine.predGroup facts s p),
      List.mem_append_right _
        (ConstraintEngine.implicit_mem_of_group facts s p f g hf hg hfs hfp hgs hgp hne2),
      rfl, rfl, hq19, rfl⟩
  · intro i hi hconf
    rcases List.mem_append.mp hi with h | h
    · obtain ⟨c, _, hc⟩ := List.mem_filterMap.mp h
      have h17 := ConstraintEngine.check_constraint_confidence c _ i hc
      rw [h17] at hconf
      exact absurd hconf hne1720
    · exact ConstraintEngine.check_implicit_sound facts i h

/-- C5 witness: the batch [(Alice, age, 25), (Alice, age, 30)] with the empty
registry yields the implicit factual/inconsistent issue over the whole group. -/
theorem c5_witness_alice_batch :
    ∃ i ∈ ConstraintEngine.validate [] [factAlice25, factAlice30],
      i.type = ConstraintType.FACTUAL ∧ i.level = ConsistencyLevel.INCONSISTENT ∧
      i.confidence = (19 : ℚ)/20 ∧
      i.conflicting_facts
        = (ConstraintEngine.predGroup [factAlice25, factAlice30] "Alice" "age").map Fact.id :=
  (c5_implicit_contradiction_pass [] [factAlice25, factAlice30]).1 "Alice" "age"
    factAlice25 factAlice30 (by decide) (by decide) (by decide) (by decide) (by decide)
    (by decide) (by decide)

/-- C8: a constraint whose rule the compiled grammar cannot parse is inert:
its per-constraint check returns no issue and removing it from any registry
position leaves `validate`'s output unchanged on every batch (and `validate`
never fails — it is a total function). -/
theorem c8_malformed_rule_inert (pre post : List Constraint) (c : Constraint)
    (facts : List Fact) (hbad : ConstraintEngine.parseRule c.rule = none) :
    ConstraintEngine.check_constraint c (ConstraintEngine.factsBySubject facts) = none ∧
    ConstraintEngine.validate (pre ++ c :: post) facts
      = ConstraintEngine.validate (pre ++ post) facts := by
  have hnone : ∀ m, ConstraintEngine.check_constraint c m = none := by
    intro m
    simp [ConstraintEngine.check_constraint, hbad]
  refine ⟨hnone _, ?_⟩
  show (List.filterMap _ (pre ++ c :: post)) ++ _ = (List.filterMap _ (pre ++ post)) ++ _
  rw [List.filterMap_append, List.filterMap_append, List.filterMap_cons, hnone]

/-- C8 witness: the free-text rule is inert in a registry alongside a
well-formed constraint. -/
theorem c8_witness_free_text_rule :
    ConstraintEngine.check_constraint cBadRule
      (ConstraintEngine.factsBySubject [factAlice30]) = none ∧
    ConstraintEngine.validate ([] ++ cBadRule :: [cAgeIs25]) [factAlice30]
      = ConstraintEngine.validate ([] ++ [cAgeIs25]) [factAlice30] :=
  c8_malformed_rule_inert [] [cAgeIs25] cBadRule [factAlice30] (by decide)

/-- C10: per `validate` call, a single registered constraint contributes at
most one issue (all constraint-pass issues carry confidence 0.85, implicit
ones 0.95); and whenever the per-constraint check returns an issue, that
issue is built from the first fact of the rule's subject whose predicate
matches the rule's attribute and whose stripped value fails the operator —
later violating facts contribute nothing. -/
theorem c10_first_violation_only (c : Constraint) (facts : List Fact) :
    ((ConstraintEngine.validate [c] facts).filter
      (fun i => decide (i.confidence = qLit 17 20))).length ≤ 1 ∧
    ∀ i, ConstraintEngine.check_constraint c (ConstraintEngine.factsBySubject facts)
        = some i →
      ∃ s a op v, ConstraintEngine.parseRule c.rule = some (s, a, op, v) ∧
        ∃ f, (ConstraintEngine.factsBySubject facts s).find?
            (fun f => f.predicate == a
              && !(ConstraintEngine.evalOp (pyStrip f.object) op
                    (stripQuotes (pyStrip v)))) = some f ∧
          i = ConstraintEngine.violationIssue c s a op (stripQuotes (pyStrip v))
                (pyStrip f.object) := by
  have hq : qLit 19 20 ≠ qLit 17 20 := by decide
  constructor
  · show ((List.filterMap _ [c] ++ ConstraintEngine.check_implicit_constraints facts).filter
      _).length ≤ 1
    rw [List.filter_append]
    have himp : ((ConstraintEngine.check_implicit_constraints facts).filter
        (fun i => decide (i.confidence = qLit 17 20))) = [] := by
      rw [List.filter_eq_nil_iff]
      intro i hi
      obtain ⟨s, p, hieq, _⟩ := ConstraintEngine.check_implicit_sound facts i hi
      rw [hieq]
      simp [ConstraintEngine.implicitIssue, hq]
    rw [himp, List.append_nil]
    calc ((List.filterMap (fun c => ConstraintEngine.check_constraint c
            (ConstraintEngine.factsBySubject facts)) [c]).filter
          (fun i => decide (i.confidence = qLit 17 20))).length
        ≤ (List.filterMap (fun c => ConstraintEngine.check_constraint c
            (ConstraintEngine.factsBySubject facts)) [c]).length :=
          List.length_filter_le _ _
      _ ≤ 1 := by
          rw [List.filterMap_cons]
          rcases ConstraintEngine.check_constraint c
              (ConstraintEngine.factsBySubject facts) with _ | i <;> simp
  · intro i hi
    rcases hp : ConstraintEngine.parseRule c.rule with _ | ⟨s, a, op, v⟩
    · simp [ConstraintEngine.check_constraint, hp] at hi
    · simp only [ConstraintEngine.check_constraint, hp,
        ConstraintEngine.checkConstraintLoop_eq] at hi
      obtain ⟨f, hfo, hfi⟩ := Option.map_eq_some'.mp hi
      exact ⟨s, a, op, v, rfl, f, hfo, hfi.symm⟩

/-- C10 witness: with rule `entity.Alice.age == 25` and two violating facts
in the batch, the constraint check picks the first violating fact. -/
theorem c10_witness_two_violations :
    ((ConstraintEngine.validate [cAgeIs25] [factAlice30, factAlice31]).filter
      (fun i => decide (i.confidence = qLit 17 20))).length ≤ 1 ∧
    ∃ s a op v, ConstraintEngine.parseRule cAgeIs25.rule = some (s, a, op, v) ∧
      ∃ f, (ConstraintEngine.factsBySubject [factAlice30, factAlice31] s).find?
          (fun f => f.predicate == a
            && !(ConstraintEngine.evalOp (pyStrip f.object) op
                  (stripQuotes (pyStrip v)))) = some f := by
  have h := c10_first_violation_only cAgeIs25 [factAlice30, factAlice31]
  refine ⟨h.1, ?_⟩
  obtain ⟨s, a, op, v, h1, f, h2, _⟩ := h.2 _ rfl
  exact ⟨s, a, op, v, h1, f, h2⟩

/-- C6: `restore_snapshot(create_snapshot())` returns the store to the
snapshotted state for every intervening mutation sequence (`add_fact`,
`remove_fact`, `add_entity`, status changes): all observable query results —
`get_fact`, `get_facts`, `get_entities`, `get_facts_by_subject`,
`get_dependents` — coincide with those of the original state. -/
theorem c6_snapshot_restore_roundtrip (kg : KnowledgeGraph) (ops : List StoreOp) :
    (∀ i, (restore_snapshot (applyOps kg ops) (create_snapshot kg)).get_fact i
      = kg.get_fact i) ∧
    (∀ limit offset, (restore_snapshot (applyOps kg ops) (create_snapshot kg)).get_facts
      limit offset = kg.get_facts limit offset) ∧
    (∀ t limit, (restore_snapshot (applyOps kg ops) (create_snapshot kg)).get_entities
      t limit = kg.get_entities t limit) ∧
    (∀ s, (restore_snapshot (applyOps kg ops) (create_snapshot kg)).get_facts_by_subject s
      = kg.get_facts_by_subject s) ∧
    (∀ i, (restore_snapshot (applyOps kg ops) (create_snapshot kg)).get_dependents i
      = kg.get_dependents i) := by
  have hres : restore_snapshot (applyOps kg ops) (create_snapshot kg) = kg := by
    cases kg
    rfl
  exact ⟨fun i => by rw [hres], fun l o => by rw [hres], fun t l => by rw [hres],
    fun s => by rw [hres], fun i => by rw [hres]⟩

/-- C7, counterexample: the claim reads the scores as exact arithmetic, but
the route computes them in doubles. With one fact checked and six issues the
program evaluates `1.0 - 6 * 0.1` to `0.3999999999999999`, strictly below the
double `0.4`, so the reported overall score differs from the claimed
`max(0, 1 − 0.1·6) = 2/5` and the reported level is `critical` even though
the claimed score satisfies the `≥ 0.4` bound for `inconsistent`. With three
behavioral issues the behavioral score `1.0 - 3 * 0.15` likewise differs
from the claimed `max(0, 1 − 0.15·3) = 11/20`. -/
theorem c7_counterexample_six_issues :
    (ConsistencyRoute.buildReport sixIssues 1 0).overall_score
      ≠ max 0 (1 - (sixIssues.length : ℚ) * (1/10)) ∧
    max 0 (1 - (sixIssues.length : ℚ) * (1/10)) = 2/5 ∧
    (4:ℚ)/10 ≤ 2/5 ∧
    (ConsistencyRoute.buildReport sixIssues 1 0).level = ConsistencyLevel.CRITICAL ∧
    (ConsistencyRoute.buildReport threeIssues 1 0).dimScore ConstraintType.BEHAVIORAL
      ≠ max 0 (1 - (ConsistencyRoute.countType threeIssues ConstraintType.BEHAVIORAL : ℚ)
          * (15/100)) := by
  have hlen : sixIssues.length = 6 := by decide
  have h2 : max 0 (1 - (sixIssues.length : ℚ) * (1/10)) = 2/5 := by
    rw [hlen]
    have hv : (1 : ℚ) - ((6:Nat):ℚ) * (1/10) = 2/5 := by norm_num
    rw [hv]
    exact max_eq_right (by norm_num)
  have hcnt : ConsistencyRoute.countType threeIssues ConstraintType.BEHAVIORAL = 3 := by
    decide
  have h3 : max 0 (1 - (ConsistencyRoute.countType threeIssues ConstraintType.BEHAVIORAL : ℚ)
      * (15/100)) = 11/20 := by
    rw [hcnt]
    have hv : (1 : ℚ) - ((3:Nat):ℚ) * (15/100) = 11/20 := by norm_num
    rw [hv]
    exact max_eq_right (by norm_num)
  have hscore : (ConsistencyRoute.buildReport sixIssues 1 0).overall_score
      = mkRat 900719925474099 (2 ^ 51) := by decide
  have hdim : (ConsistencyRoute.buildReport threeIssues 1 0).dimScore
      ConstraintType.BEHAVIORAL = mkRat 2476979795053773 (2 ^ 52) := by decide
  refine ⟨?_, h2, by norm_num, by decide, ?_⟩
  · rw [hscore, h2, Fp64.mkRat_eq_q]
    norm_num
  · rw [hdim, h3, Fp64.mkRat_eq_q]
    norm_num

/-- C7, amended: the aggregate scoring of the consistency route, in the
IEEE-754 double arithmetic the route actually performs: overall score is
the double evaluation of `max(0.0, 1.0 − issue_count * 0.1)` when
facts+entities were checked and 1.0 otherwise; every per-dimension score is
the double evaluation of `max(0.0, 1.0 − count * 0.15)`; and the reported
level follows the ≥0.9 / ≥0.7 / ≥0.4 threshold chain comparing the double
score against the double literals, in that order. The claim's exact-rational
reading is refuted at six issues (`c7_counterexample_six_issues`). -/
theorem c7_score_formulas_double (issues : List ConsistencyIssue)
    (factCount entityCount : Nat) :
    (factCount + entityCount > 0 →
      (ConsistencyRoute.buildReport issues factCount entityCount).overall_score
        = max 0 (Fp64.fsub 1 (Fp64.fmul (Fp64.ofNat issues.length) Fp64.lit01))) ∧
    (factCount + entityCount = 0 →
      (ConsistencyRoute.buildReport issues factCount entityCount).overall_score = 1) ∧
    (∀ t, (ConsistencyRoute.buildReport issues factCount entityCount).dimScore t
      = max 0 (Fp64.fsub 1 (Fp64.fmul (Fp64.ofNat (ConsistencyRoute.countType issues t))
          Fp64.lit015))) ∧
    (Fp64.lit09 ≤ (ConsistencyRoute.buildReport issues factCount entityCount).overall_score →
      (ConsistencyRoute.buildReport issues factCount entityCount).level
        = ConsistencyLevel.CONSISTENT) ∧
    (Fp64.lit07 ≤ (ConsistencyRoute.buildReport issues factCount entityCount).overall_score →
      (ConsistencyRoute.buildReport issues factCount entityCount).overall_score < Fp64.lit09 →
      (ConsistencyRoute.buildReport issues factCount entityCount).level
        = ConsistencyLevel.WARNING) ∧
    (Fp64.lit04 ≤ (ConsistencyRoute.buildReport issues factCount entityCount).overall_score →
      (ConsistencyRoute.buildReport issues factCount entityCount).overall_score < Fp64.lit07 →
      (ConsistencyRoute.buildReport issues factCount entityCount).level
        = ConsistencyLevel.INCONSISTENT) ∧
    ((ConsistencyRoute.buildReport issues factCount entityCount).overall_score < Fp64.lit04 →
      (ConsistencyRoute.buildReport issues factCount entityCount).level
        = ConsistencyLevel.CRITICAL) := by
  have hx1 : Fp64.fsub 1 (Fp64.fmul (Fp64.ofNat issues.length) Fp64.lit01) ≤ 1 := by
    rw [Fp64.fsub_eq]
    apply Fp64.roundDouble_le_one
    have hy : (0:ℚ) ≤ Fp64.fmul (Fp64.ofNat issues.length) Fp64.lit01 := by
      rw [Fp64.fmul_eq]
      apply Fp64.roundDouble_nonneg
      apply mul_nonneg
      · rw [Fp64.ofNat_eq]
        exact Fp64.roundDouble_nonneg (by positivity)
      · show (0:ℚ) ≤ Fp64.roundDouble (mkRat 1 10)
        exact Fp64.roundDouble_nonneg (by rw [Fp64.mkRat_eq_q]; norm_num)
    linarith
  have hraw : (ConsistencyRoute.buildReport issues factCount entityCount).overall_score
      = if factCount + entityCount > 0
        then max 0 (Fp64.fsub 1 (Fp64.fmul (Fp64.ofNat issues.length) Fp64.lit01))
        else 1 := by
    show max 0 (min 1 (if factCount + entityCount > 0
      then max 0 (Fp64.fsub 1 (Fp64.fmul (Fp64.ofNat issues.length) Fp64.lit01))
      else 1)) = _
    split
    · rw [min_eq_right (max_le (by norm_num) hx1), max_eq_right (le_max_left _ _)]
    · norm_num
  have hlv : (ConsistencyRoute.buildReport issues factCount entityCount).level
      = (if (if factCount + entityCount > 0
            then max 0 (Fp64.fsub 1 (Fp64.fmul (Fp64.ofNat issues.length) Fp64.lit01))
            else 1) ≥ Fp64.lit09
          then ConsistencyLevel.CONSISTENT
        else if (if factCount + entityCount > 0
            then max 0 (Fp64.fsub 1 (Fp64.fmul (Fp64.ofNat issues.length) Fp64.lit01))
            else 1) ≥ Fp64.lit07
          then ConsistencyLevel.WARNING
        else if (if factCount + entityCount > 0
            then max 0 (Fp64.fsub 1 (Fp64.fmul (Fp64.ofNat issues.length) Fp64.lit01))
            else 1) ≥ Fp64.lit04
          then ConsistencyLevel.INCONSISTENT
        else ConsistencyLevel.CRITICAL) := rfl
  rw [← hraw] at hlv
  refine ⟨fun h => by rw [hraw, if_pos h], fun h => by rw [hraw, if_neg (by omega)],
    fun t => by cases t <;> rfl, ?_, ?_, ?_, ?_⟩
  · intro h9
    rw [hlv, if_pos h9]
  · intro h7 h9
    rw [hlv, if_neg (not_le.mpr h9), if_pos h7]
  · intro h4 h7
    rw [hlv, if_neg (not_le.mpr (lt_trans h7 (by decide : Fp64.lit07 < Fp64.lit09))),
      if_neg (not_le.mpr h7), if_pos h4]
  · intro h4
    rw [hlv, if_neg (not_le.mpr (lt_trans h4 (by decide : Fp64.lit04 < Fp64.lit09))),
      if_neg (not_le.mpr (lt_trans h4 (by decide : Fp64.lit04 < Fp64.lit07))),
      if_neg (not_le.mpr h4)]

/-- C7 witness (amended theorem): with one fact checked and no issues the
overall score equals the double formula value (here 1.0) and the level is
consistent; with nothing checked the score is pinned to 1.0. -/
theorem c7_witness_double_empty_and_unit :
    (ConsistencyRoute.buildReport [] 1 0).overall_score
      = max 0 (Fp64.fsub 1 (Fp64.fmul (Fp64.ofNat ([] : List ConsistencyIssue).length)
          Fp64.lit01)) ∧
    (ConsistencyRoute.buildReport [] 0 0).overall_score = 1 ∧
    (ConsistencyRoute.buildReport [] 1 0).level = ConsistencyLevel.CONSISTENT := by
  have h := c7_score_formulas_double ([] : List ConsistencyIssue) 1 0
  have h0 := c7_score_formulas_double ([] : List ConsistencyIssue) 0 0
  refine ⟨h.1 (by decide), h0.2.1 rfl, ?_⟩
  exact h.2.2.2.1 (by decide)

/-- C9: the resurrection scenario. Bob is tracked with a not-alive state at
narrative position 2; the input text mentions Bob together with the action
verb "ran" at sentence index 5 > 2. `check_behavior` returns exactly one
issue that is behavioral, critical and of confidence 0.9 — and here exactly
one issue in total. When Bob instead acts only at sentence index 1, which is
not strictly greater than the death position, no such issue is produced. -/
theorem c9_resurrection_scenario :
    ((EntityTracker.check_behavior bobTracker [bobEntity] bobText).2.countP
      (fun i => decide (i.type = ConstraintType.BEHAVIORAL
        ∧ i.level = ConsistencyLevel.CRITICAL ∧ i.confidence = qLit 9 10))) = 1 ∧
    (EntityTracker.check_behavior bobTracker [bobEntity] bobText).2.length = 1 ∧
    ((EntityTracker.check_behavior bobTracker [bobEntity] bobTextEarly).2.countP
      (fun i => decide (i.type = ConstraintType.BEHAVIORAL
        ∧ i.level = ConsistencyLevel.CRITICAL ∧ i.confidence = qLit 9 10))) = 0 := by
  refine ⟨?_, ?_, ?_⟩ <;> decide

end Concord
